import Mathlib

/-!
# Order tracking simulator of THE_SOCIAL_BITE (src/trackorder.js)

A shallow embedding of the `TrackOrder` class: the status progression
(`simulateOrderProgress`), the owner lookup (`findUserOrder`, `track`), the
refresh operation (`refreshOrderData`, alone and with the tracker's own
listener), the auto-refresh timer and the view calculators
(`calculateProgressPercentage`, `calculateEstimatedTime`, `formatStatus`,
`getStatusBadgeClass`); of the `OrderHistory` class
(src/FOOD_DELIVERY/orderhistory.js): `loadHistory`, `clearHistory` and
`getOrderStats`; and of `AuthSystem.register` (src/auth.js).

Modelling conventions.

* JavaScript values that the modelled code inspects (ids, dates, statuses) are
  `JSVal`: `undefined`, `null`, an integer-valued number, or a string.  Numbers
  are integers of magnitude below `2^53`, where JavaScript arithmetic on them
  is exact and `toString` is the decimal numeral.  The same holds for the
  difference of two time values (dates less than 285,000 years apart), for
  which `Math.floor(timeDiff / 60000)` is the exact integer quotient.
* A JavaScript number that may be `NaN` is an `Option Int` (`none` is `NaN`).
* `Math.floor (x / k)` for a positive literal `k` is `x / k` on `Int`, which
  rounds toward minus infinity.
* The clock (`new Date()`), the host date parser (`new Date(string)`), the
  current user (`getCurrentUser()`) and whether `localStorage.setItem`
  succeeds are explicit inputs.
* A read `table[key]` on an object literal follows the prototype chain: a key
  that names a member of `Object.prototype` finds that member.
-/

namespace TrackOrder

/-! ## JavaScript values -/

/-- The JavaScript values that occur as order ids, user ids, dates and statuses. -/
inductive JSVal where
  | undefined
  | null
  | num (n : Int)
  | str (s : String)
  deriving DecidableEq, Repr

/-- JavaScript truthiness (`!x`, `x || y`): `undefined`, `null`, `0` and the
empty string are falsy. -/
def JSVal.truthy : JSVal → Bool
  | .undefined => false
  | .null => false
  | .num n => n != 0
  | .str s => s != ""

/-- Result of `x.toString()`: `none` where the call throws a `TypeError`
(`x` is `undefined` or `null`). -/
def JSVal.toStr? : JSVal → Option String
  | .undefined => none
  | .null => none
  | .num n => some (toString n)
  | .str s => some s

/-- Exceptions the modelled code can raise. -/
inductive JSError where
  | typeError
  | quotaExceeded
  deriving DecidableEq, Repr

deriving instance DecidableEq for Except

/-- The comparison used for ids,
`a === b || a?.toString() === b.toString()`: strict equality first; otherwise
`b.toString()` throws when `b` is nullish, and `a?.toString()` is `undefined`
(never equal to a string) when `a` is nullish. -/
def looseMatch (a b : JSVal) : Except JSError Bool :=
  if a = b then .ok true
  else
    match b.toStr? with
    | none => .error .typeError
    | some sb => .ok (decide (a.toStr? = some sb))

/-! ## Data model -/

/-- One line of an order. -/
structure OrderItem where
  name : JSVal
  price : JSVal
  quantity : JSVal
  image : JSVal
  deriving DecidableEq, Repr

/-- An order record as stored under the `orders` key. -/
structure Order where
  id : JSVal
  userId : JSVal
  createdAt : JSVal
  date : JSVal
  status : JSVal
  items : List OrderItem
  total : JSVal
  deliveryAddress : JSVal
  specialInstructions : JSVal
  deriving DecidableEq, Repr

/-- The current user, as far as the tracking code reads it (`user.id`). -/
structure User where
  id : JSVal
  deriving DecidableEq, Repr

/-! ## Status progression -/

/-- The array `statusFlow` of `simulateOrderProgress`. -/
def statusFlow : List String :=
  ["confirmed", "preparing", "out_for_delivery", "delivered"]

/-- `Array.prototype.indexOf` on an array of strings, counting from `i`:
strict equality, `-1` when absent. -/
def indexOfFrom (v : JSVal) : List String → Int → Int
  | [], _ => -1
  | x :: rest, i => if v = JSVal.str x then i else indexOfFrom v rest (i + 1)

/-- `xs.indexOf(v)`. -/
def indexOf (xs : List String) (v : JSVal) : Int :=
  indexOfFrom v xs 0

/-- `xs[i]` for an integer `i`: `undefined` outside the array. -/
def elemAt (xs : List String) (i : Int) : JSVal :=
  if i < 0 then JSVal.undefined
  else
    match xs[i.toNat]? with
    | some s => JSVal.str s
    | none => JSVal.undefined

/-- Time value of `new Date(v)`: `none` is an invalid date.  A number is a
time value when within the ECMAScript range of 8.64e15 ms around the epoch;
`null` converts to `0`; a string goes through the host parser. -/
def toDate (parseDate : String → Option Int) : JSVal → Option Int
  | .undefined => none
  | .null => some 0
  | .num n => if n.natAbs ≤ 8640000000000000 then some n else none
  | .str s => parseDate s

/-- The time of `new Date(order.createdAt || order.date)`. -/
def orderTime (parseDate : String → Option Int) (order : Order) : Option Int :=
  toDate parseDate (if order.createdAt.truthy then order.createdAt else order.date)

/-- The value `minutesDiff = Math.floor((now - orderTime) / (1000 * 60))`;
`none` is `NaN`. -/
def minutesDiff (parseDate : String → Option Int) (now : Int) (order : Order) :
    Option Int :=
  match orderTime parseDate order with
  | none => none
  | some t => some ((now - t) / (1000 * 60))

/-- The value
`expectedProgress = Math.min(Math.floor(minutesDiff / 8), statusFlow.length - 1)`. -/
def expectedProgress (minutes : Int) : Int :=
  min (minutes / 8) ((statusFlow.length : Int) - 1)

/-- The method `simulateOrderProgress(order)`, with the clock reading `now`
made explicit.  A `NaN` elapsed time makes `expectedProgress` `NaN`, so the
comparison `expectedProgress > currentIndex` is false. -/
def simulateOrderProgress (parseDate : String → Option Int) (now : Int)
    (order : Order) : Order :=
  let currentIndex := indexOf statusFlow order.status
  if currentIndex < (statusFlow.length : Int) - 1 then
    match minutesDiff parseDate now order with
    | none => order
    | some m =>
      if expectedProgress m > currentIndex then
        { order with status := elemAt statusFlow (expectedProgress m) }
      else order
  else order

/-! ## Owner lookup -/

/-- `Array.prototype.find` with a callback that may throw. -/
def findM (p : Order → Except JSError Bool) : List Order → Except JSError (Option Order)
  | [] => .ok none
  | o :: rest =>
    match p o with
    | .error e => .error e
    | .ok true => .ok (some o)
    | .ok false => findM p rest

/-- `Array.prototype.findIndex` with a callback that may throw; `none` is `-1`. -/
def findIndexM (p : Order → Except JSError Bool) :
    List Order → Except JSError (Option Nat)
  | [] => .ok none
  | o :: rest =>
    match p o with
    | .error e => .error e
    | .ok true => .ok (some 0)
    | .ok false =>
      match findIndexM p rest with
      | .error e => .error e
      | .ok none => .ok none
      | .ok (some i) => .ok (some (i + 1))

/-- The callback of `findUserOrder`: both matches are computed, then combined. -/
def userOrderMatch (orderId userId : JSVal) (order : Order) : Except JSError Bool :=
  match looseMatch order.id orderId with
  | .error e => .error e
  | .ok orderIdMatch =>
    match looseMatch order.userId userId with
    | .error e => .error e
    | .ok userMatch => .ok (orderIdMatch && userMatch)

/-- The method `findUserOrder(orderId, userId)` over the list `this.orders`. -/
def findUserOrder (orders : List Order) (orderId userId : JSVal) :
    Except JSError (Option Order) :=
  findM (userOrderMatch orderId userId) orders

/-- The callback of `findIndex` in `refreshOrderData`; reading `user.id`
throws when there is no current user. -/
def refreshMatch (user : Option User) (orderId : JSVal) (o : Order) :
    Except JSError Bool :=
  match looseMatch o.id orderId with
  | .error e => .error e
  | .ok orderIdMatch =>
    match user with
    | none => .error .typeError
    | some u =>
      match looseMatch o.userId u.id with
      | .error e => .error e
      | .ok userMatch => .ok (orderIdMatch && userMatch)

/-! ## The tracker and its surroundings -/

/-- The `detail` of an `orderStatusUpdated` event
(`dispatchOrderUpdateEvent(orderId, status)`). -/
structure StatusEvent where
  orderId : JSVal
  status : JSVal
  deriving DecidableEq, Repr

/-- The calls of `showNotification` made by the modelled methods, by message. -/
inductive Notice where
  /-- Text 'Invalid order ID', kind error. -/
  | invalidOrderId
  /-- Text 'Please login to track your order', kind error. -/
  | loginRequired
  /-- Text 'Order not found or you don't have permission to view this order'. -/
  | orderNotFound
  /-- Text 'Failed to track order', kind error. -/
  | trackFailed
  /-- Text 'Order status updated to: ' followed by the formatted status. -/
  | statusUpdated (status : JSVal)
  /-- Text 'Order status is current', kind info. -/
  | statusCurrent
  /-- Text 'Failed to refresh order status', kind error. -/
  | refreshFailed
  deriving DecidableEq, Repr

/-- What the tracker reads from its surroundings during one call. -/
structure Env where
  /-- Time value of `new Date()`. -/
  now : Int
  /-- The host parser behind `new Date(string)`. -/
  parseDate : String → Option Int
  /-- Result of `getCurrentUser()`; `none` is `null`. -/
  user : Option User
  /-- Whether `localStorage.setItem` succeeds (it throws when the quota is
  exceeded). -/
  storageWritable : Bool

/-- The state the tracker acts on. -/
structure World where
  /-- The list under the `orders` key of `localStorage`, as `loadOrders`
  parses it (an absent or unparsable entry reads as the empty list). -/
  store : List Order
  /-- The field `this.orders`. -/
  orders : List Order
  /-- The `orderStatusUpdated` events dispatched so far, oldest first. -/
  events : List StatusEvent
  /-- The notifications shown so far, oldest first. -/
  notices : List Notice
  /-- The orders handed to `displayTrackingModal` so far, oldest first. -/
  displayed : List Order
  deriving DecidableEq, Repr

/-- `showNotification`. -/
def World.notify (w : World) (n : Notice) : World :=
  { w with notices := w.notices ++ [n] }

/-- The method `track(orderId)`: a falsy id and a missing user end the call
with a notification (the redirect to the login page is not modelled), an
exception inside the `try` block ends it with 'Failed to track order', and
`displayTrackingModal` is called only with an order that `findUserOrder`
returns. -/
def track (env : Env) (orderId : JSVal) (w : World) : World :=
  if !orderId.truthy then w.notify .invalidOrderId
  else
    match env.user with
    | none => w.notify .loginRequired
    | some user =>
      match findUserOrder w.orders orderId user.id with
      | .error _ => w.notify .trackFailed
      | .ok none => w.notify .orderNotFound
      | .ok (some order) => { w with displayed := w.displayed ++ [order] }

/-- One invocation of the method `refreshOrderData(orderId)`.  Dispatching the
event is recorded in `events`; what the listeners of that event do, the
tracker's own listener among them, is not part of this function:
`refreshOrderDataNested` is the method with that listener.  The whole body is
inside `try`, so an exception ends the call with the 'Failed to refresh order
status' notification, keeping the assignments made before it;
`displayTrackingModal` and `showNotification` are taken not to throw. -/
def refreshOrderData (env : Env) (orderId : JSVal) (w : World) : World :=
  let w1 : World := { w with orders := w.store }
  match findIndexM (refreshMatch env.user orderId) w1.orders with
  | .error _ => w1.notify .refreshFailed
  | .ok none => w1
  | .ok (some orderIndex) =>
    match w1.orders[orderIndex]? with
    | none => w1
    | some current =>
      let updatedOrder := simulateOrderProgress env.parseDate env.now current
      if updatedOrder.status ≠ current.status then
        let w2 : World := { w1 with orders := w1.orders.set orderIndex updatedOrder }
        if env.storageWritable then
          { w2 with
            store := w2.orders
            events := w2.events ++ [{ orderId := orderId, status := updatedOrder.status }]
            displayed := w2.displayed ++ [updatedOrder]
            notices := w2.notices ++ [.statusUpdated updatedOrder.status] }
        else w2.notify .refreshFailed
      else w1.notify .statusCurrent

/-! ## Derived view calculators -/

/-- The property names every object literal inherits from `Object.prototype`
in a browser (ECMAScript, with Annex B).  Reading one of them yields a function
(for `__proto__`, the prototype object), which is truthy. -/
def objectPrototypeKeys : List String :=
  ["constructor", "__defineGetter__", "__defineSetter__", "hasOwnProperty",
   "__lookupGetter__", "__lookupSetter__", "isPrototypeOf", "propertyIsEnumerable",
   "toString", "valueOf", "__proto__", "toLocaleString"]

/-- The property key a value is converted to in `table[v]`. -/
def propertyKey : JSVal → String
  | .undefined => "undefined"
  | .null => "null"
  | .num n => toString n
  | .str s => s

/-- What a read `table[key] || fallback` on an object literal can yield: a value
of the table's type, or a member of `Object.prototype`. -/
inductive Looked (α : Type) where
  | value (v : α)
  | prototypeMember (name : String)
  deriving DecidableEq, Repr

/-- The read `table[key]` on an object literal with the own properties `table`:
an own property first, then the prototype chain, else `undefined` (`none`). -/
def lookupProp {α : Type} (table : List (String × α)) (key : JSVal) : Option (Looked α) :=
  match table.lookup (propertyKey key) with
  | some v => some (.value v)
  | none =>
    if propertyKey key ∈ objectPrototypeKeys then some (.prototypeMember (propertyKey key))
    else none

/-- The object `progressMap` of `calculateProgressPercentage`. -/
def progressMap : List (String × Int) :=
  [("confirmed", 25), ("preparing", 50), ("out_for_delivery", 75), ("delivered", 100),
   ("cancelled", 100)]

/-- The method `calculateProgressPercentage(status)`,
`progressMap[status] || 0`: a falsy own value and a missing property give `0`. -/
def calculateProgressPercentage (status : JSVal) : Looked Int :=
  match lookupProp progressMap status with
  | some (.value v) => if v ≠ 0 then .value v else .value 0
  | some (.prototypeMember name) => .prototypeMember name
  | none => .value 0

/-- A number inside a template literal; `none` is `NaN`. -/
def numberText : Option Int → String
  | none => "NaN"
  | some n => toString n

/-- The method `calculateEstimatedTime(status, orderDate)`, with the clock
reading `now` made explicit; `none` is `null`.  `Math.min`, `Math.max` and
subtraction all yield `NaN` on a `NaN` argument, so the number in the label is
`NaN` exactly when `minutesDiff` is.  Nothing in the `try` block throws. -/
def calculateEstimatedTime (parseDate : String → Option Int) (now : Int)
    (status orderDate : JSVal) : Option String :=
  let minutesDiff : Option Int :=
    match toDate parseDate orderDate with
    | none => none
    | some t => some ((now - t) / (1000 * 60))
  if status = .str "confirmed" then
    some ("~" ++ numberText (minutesDiff.map fun m => max 5 (45 - min m 15))
      ++ " minutes remaining")
  else if status = .str "preparing" then
    some ("~" ++ numberText (minutesDiff.map fun m => max 5 (30 - min (m - 15) 15))
      ++ " minutes remaining")
  else if status = .str "out_for_delivery" then
    some ("~" ++ numberText (minutesDiff.map fun m => max 2 (15 - min (m - 30) 15))
      ++ " minutes remaining")
  else if status = .str "delivered" then some "Delivered"
  else if status = .str "cancelled" then some "Order Cancelled"
  else none

/-! ## Status labels and badge classes -/

/-- The object `classes` of `TrackOrder.getStatusBadgeClass`. -/
def classes : List (String × String) :=
  [("confirmed", "bg-primary"), ("preparing", "bg-warning text-dark"),
   ("out_for_delivery", "bg-info"), ("delivered", "bg-success"), ("cancelled", "bg-danger")]

/-- The method `getStatusBadgeClass(status)` of `TrackOrder`,
`classes[status] || 'bg-secondary'`. -/
def getStatusBadgeClass (status : JSVal) : Looked String :=
  match lookupProp classes status with
  | some (.value v) => if v ≠ "" then .value v else .value "bg-secondary"
  | some (.prototypeMember name) => .prototypeMember name
  | none => .value "bg-secondary"

/-- The object `statusMap` of `TrackOrder.formatStatus`. -/
def statusMap : List (String × String) :=
  [("confirmed", "Confirmed"), ("preparing", "Preparing"),
   ("out_for_delivery", "Out for Delivery"), ("delivered", "Delivered"),
   ("cancelled", "Cancelled")]

/-- The method `formatStatus(status)` of `TrackOrder`, `statusMap[status] || status`:
the fallback is the argument itself. -/
def formatStatus (status : JSVal) : Looked JSVal :=
  match lookupProp statusMap status with
  | some (.value v) => if v ≠ "" then .value (.str v) else .value status
  | some (.prototypeMember name) => .prototypeMember name
  | none => .value status

/-- The object `classes` of `OrderHistory.getStatusBadgeClass`
(src/FOOD_DELIVERY/orderhistory.js). -/
def OrderHistory.classes : List (String × String) :=
  [("confirmed", "bg-primary"), ("preparing", "bg-warning text-dark"),
   ("out_for_delivery", "bg-info"), ("delivered", "bg-success"), ("cancelled", "bg-danger")]

/-- The method `getStatusBadgeClass(status)` of `OrderHistory`. -/
def OrderHistory.getStatusBadgeClass (status : JSVal) : Looked String :=
  match lookupProp OrderHistory.classes status with
  | some (.value v) => if v ≠ "" then .value v else .value "bg-secondary"
  | some (.prototypeMember name) => .prototypeMember name
  | none => .value "bg-secondary"

/-- The object `statusMap` of `OrderHistory.formatStatus`. -/
def OrderHistory.statusMap : List (String × String) :=
  [("confirmed", "Confirmed"), ("preparing", "Preparing"),
   ("out_for_delivery", "Out for Delivery"), ("delivered", "Delivered"),
   ("cancelled", "Cancelled")]

/-- The method `formatStatus(status)` of `OrderHistory`. -/
def OrderHistory.formatStatus (status : JSVal) : Looked JSVal :=
  match lookupProp OrderHistory.statusMap status with
  | some (.value v) => if v ≠ "" then .value (.str v) else .value status
  | some (.prototypeMember name) => .prototypeMember name
  | none => .value status

/-! ## The auto-refresh timer -/

/-- An interval timer the host keeps running: the handle `setInterval` returned,
the order it refreshes and its delay in milliseconds. -/
structure Timer where
  handle : Nat
  orderId : JSVal
  delay : Nat
  deriving DecidableEq, Repr

/-- The field `this.refreshInterval` (`none` is `null`) and the host's table of
running interval timers.  `setInterval` hands out `nextHandle`, a positive
integer, and never the same handle twice. -/
structure TimerState where
  refreshInterval : Option Nat
  active : List Timer
  nextHandle : Nat
  deriving DecidableEq, Repr

/-- The state the constructor leaves: `this.refreshInterval = null`, no timer. -/
def initialTimers : TimerState :=
  { refreshInterval := none, active := [], nextHandle := 1 }

/-- The method `stopAutoRefresh()`: a truthy `this.refreshInterval` is cleared
with `clearInterval` and reset to `null`. -/
def stopAutoRefresh (s : TimerState) : TimerState :=
  match s.refreshInterval with
  | none => s
  | some handle =>
    if handle ≠ 0 then
      { s with
        active := s.active.filter fun t => t.handle ≠ handle
        refreshInterval := none }
    else s

/-- The method `startAutoRefresh(orderId, status)`: for a status other than
delivered and cancelled, `stopAutoRefresh()` and then
`this.refreshInterval = setInterval(..., 30000)`. -/
def startAutoRefresh (orderId status : JSVal) (s : TimerState) : TimerState :=
  if status ≠ .str "delivered" ∧ status ≠ .str "cancelled" then
    let s1 := stopAutoRefresh s
    { refreshInterval := some s1.nextHandle
      active := s1.active ++ [{ handle := s1.nextHandle, orderId := orderId, delay := 30000 }]
      nextHandle := s1.nextHandle + 1 }
  else s

/-- A call of one of the two timer methods. -/
inductive TimerCall where
  | start (orderId status : JSVal)
  | stop
  deriving DecidableEq, Repr

/-- One call applied to the timer state. -/
def TimerCall.run : TimerCall → TimerState → TimerState
  | .start orderId status, s => startAutoRefresh orderId status s
  | .stop, s => stopAutoRefresh s

/-- A sequence of calls applied in order. -/
def runTimerCalls (calls : List TimerCall) (s : TimerState) : TimerState :=
  calls.foldl (fun st c => c.run st) s

/-! ## Order history (src/FOOD_DELIVERY/orderhistory.js) -/

/-- The calls of `showNotification` made by the modelled `OrderHistory` methods. -/
inductive HistoryNotice where
  /-- Text 'Please login to view your order history', kind error. -/
  | loginToView
  /-- Text 'Please login to clear order history', kind error. -/
  | loginToClear
  /-- Text 'Order history cleared successfully!', kind success. -/
  | cleared
  deriving DecidableEq, Repr

/-- The state `OrderHistory` acts on: the list under the `orders` key of
`localStorage`, the field `this.orders` (read from the store by the
constructor) and the notifications shown so far. -/
structure HistoryState where
  store : List Order
  orders : List Order
  notices : List HistoryNotice
  deriving DecidableEq, Repr

/-- The value of the comparator `(a, b) => new Date(b.date) - new Date(a.date)`
as `Array.prototype.sort` uses it: a `NaN` result counts as `+0`. -/
def dateCompare (parseDate : String → Option Int) (a b : Order) : Int :=
  match toDate parseDate b.date, toDate parseDate a.date with
  | some tb, some ta => tb - ta
  | _, _ => 0

/-- `Array.prototype.sort` with a comparator: a stable sort that puts `a` before
`b` when `cmp(a, b) < 0` and keeps their order when `cmp(a, b) = 0`.  For a
consistent comparator this is the order ECMAScript prescribes; for an
inconsistent one the order is implementation-defined. -/
def sortWith (cmp : Order → Order → Int) (l : List Order) : List Order :=
  l.insertionSort fun a b => cmp a b ≤ 0

/-- The method `loadHistory()`; `user` is the result of `auth.getCurrentUser()`.
`filter` builds a new array, which `sort` then orders in place. -/
def OrderHistory.loadHistory (parseDate : String → Option Int) (user : Option User)
    (s : HistoryState) : List Order × HistoryState :=
  match user with
  | none => ([], { s with notices := s.notices ++ [.loginToView] })
  | some u =>
    let userOrders := s.orders.filter fun order => decide (order.userId = u.id)
    (sortWith (dateCompare parseDate) userOrders, s)

/-- The method `clearHistory()`; `confirmed` is the answer to `confirm(...)`.  The
method has no `try`: a failing `localStorage.setItem` throws out of it before
`this.orders` is assigned, leaving the state as it was. -/
def OrderHistory.clearHistory (confirmed : Bool) (user : Option User)
    (storageWritable : Bool) (s : HistoryState) : Except JSError HistoryState :=
  if !confirmed then .ok s
  else
    match user with
    | none => .ok { s with notices := s.notices ++ [.loginToClear] }
    | some u =>
      let allOrders := s.store
      let otherUsersOrders := allOrders.filter fun order => decide (order.userId ≠ u.id)
      if storageWritable then
        .ok { store := otherUsersOrders
              orders := otherUsersOrders
              notices := s.notices ++ [.cleared] }
      else .error .quotaExceeded

/-- The value of an accumulated `sum + order.total`: a number (`none` is `NaN`)
or, once a string took part, a string. -/
inductive Total where
  | number (n : Option Int)
  | text (s : String)
  deriving DecidableEq, Repr

/-- The operator `+` as `sum + order.total` uses it: numbers add, `null`
counts as `0`, `undefined` gives `NaN`, and a string operand turns the sum
into a concatenation. -/
def Total.add (sum : Total) (v : JSVal) : Total :=
  match sum, v with
  | .number a, .num n => .number (a.map fun x => x + n)
  | .number a, .null => .number a
  | .number _, .undefined => .number none
  | .number a, .str t => .text (numberText a ++ t)
  | .text s, w => .text (s ++ propertyKey w)

/-- The object `getOrderStats()` returns. -/
structure OrderStats where
  totalOrders : Nat
  totalSpent : Total
  deliveredOrders : Nat
  pendingOrders : Nat
  deriving DecidableEq, Repr

/-- The method `getOrderStats()`. -/
def OrderHistory.getOrderStats (parseDate : String → Option Int) (user : Option User)
    (s : HistoryState) : OrderStats × HistoryState :=
  let orders := (OrderHistory.loadHistory parseDate user s).1
  ({ totalOrders := orders.length
     totalSpent := orders.foldl (fun sum order => sum.add order.total) (.number (some 0))
     deliveredOrders :=
       (orders.filter fun order => decide (order.status = .str "delivered")).length
     pendingOrders :=
       (orders.filter fun order => decide (order.status ≠ .str "delivered")).length },
   (OrderHistory.loadHistory parseDate user s).2)

/-! ## Registration (src/auth.js) -/

/-- The `length` of a JavaScript string: its number of UTF-16 code units. -/
def utf16Length (s : String) : Nat :=
  s.toList.foldl (fun n c => n + (if c.toNat < 65536 then 1 else 2)) 0

/-- The characters `\s` matches and `trim` removes: ECMAScript white space and
line terminators. -/
def isJsSpace (c : Char) : Bool :=
  let n := c.toNat
  (9 ≤ n && n ≤ 13) || n == 32 || n == 160 || n == 5760 || (8192 ≤ n && n ≤ 8202) ||
    n == 8232 || n == 8233 || n == 8239 || n == 8287 || n == 12288 || n == 65279

/-- `String.prototype.trim`. -/
def trim (s : String) : String :=
  String.mk ((s.toList.dropWhile isJsSpace).reverse.dropWhile isJsSpace).reverse

/-- The character class `[^\s@]`. -/
def emailChar (c : Char) : Bool :=
  !isJsSpace c && c != '@'

/-- The method `isValidEmail(email)`: the test of
`/^[^\s@]+@[^\s@]+\.[^\s@]+$/`.  The string matches when it splits, at some
`@` at index `i` and some `.` at index `j`, into three non-empty runs of
`[^\s@]` characters. -/
def isValidEmail (email : String) : Bool :=
  let cs := email.toList
  (List.range cs.length).any fun i =>
    (List.range cs.length).any fun j =>
      cs[i]? == some '@' && cs[j]? == some '.' &&
        decide (0 < i) && decide (i + 1 < j) && decide (j + 1 < cs.length) &&
        (cs.take i).all emailChar && ((cs.take j).drop (i + 1)).all emailChar &&
        (cs.drop (j + 1)).all emailChar

/-- A user record as stored under the `users` key. -/
structure StoredUser where
  id : JSVal
  username : JSVal
  email : JSVal
  password : JSVal
  role : JSVal
  createdAt : JSVal
  status : JSVal
  deriving DecidableEq, Repr

/-- The state `AuthSystem` acts on: the list under the `users` key of
`localStorage`, the field `this.currentUser` and the entry under the
`currentUser` key. -/
structure AuthState where
  users : List StoredUser
  currentUser : Option StoredUser
  savedUser : Option StoredUser
  deriving DecidableEq, Repr

/-- What `register` reads from its surroundings: the clock (`Date.now()` and
`new Date()`, taken as one reading), the host functions `toISOString` and
`toLowerCase`, and whether `localStorage.setItem` succeeds. -/
structure AuthEnv where
  now : Int
  toISOString : Int → String
  toLowerCase : String → String
  storageWritable : Bool

/-- The object `register` returns. -/
inductive RegisterResult where
  | failure (error : String)
  | success (user : StoredUser)
  deriving DecidableEq, Repr

/-- The method `register(username, email, password, role = 'customer')` for
string arguments.  The method has no `try`: a failing `localStorage.setItem`
throws out of it before anything is stored. -/
def AuthSystem.register (env : AuthEnv) (username email password : String) (role : JSVal)
    (s : AuthState) : Except JSError (RegisterResult × AuthState) :=
  if username = "" ∨ email = "" ∨ password = "" then
    .ok (.failure "All fields are required", s)
  else if utf16Length username < 3 then
    .ok (.failure "Username must be at least 3 characters", s)
  else if utf16Length password < 6 then
    .ok (.failure "Password must be at least 6 characters", s)
  else if !isValidEmail email then
    .ok (.failure "Please enter a valid email address", s)
  else
    let users := s.users
    if users.any fun u => decide (u.email = .str email) then
      .ok (.failure "User with this email already exists", s)
    else if users.any fun u => decide (u.username = .str username) then
      .ok (.failure "Username already taken", s)
    else
      let user : StoredUser :=
        { id := .num env.now
          username := .str (trim username)
          email := .str (trim (env.toLowerCase email))
          password := .str password
          role := if role = .undefined then .str "customer" else role
          createdAt := .str (env.toISOString env.now)
          status := .str "active" }
      if env.storageWritable then
        .ok (.success user,
          { users := users ++ [user], currentUser := some user, savedUser := some user })
      else .error .quotaExceeded

/-- The six checks `register` makes before it stores a user, taken together.
Each reads the arguments as typed: `length` counts UTF-16 code units, and the
two lookups compare the stored emails and usernames with `email` and
`username` before these are lower-cased and trimmed for storing. -/
def rejectedAsTyped (username email password : String) (users : List StoredUser) : Prop :=
  username = "" ∨ email = "" ∨ password = "" ∨ utf16Length username < 3 ∨
    utf16Length password < 6 ∨ isValidEmail email = false ∨
    (∃ u ∈ users, u.email = .str email) ∨ (∃ u ∈ users, u.username = .str username)

/-! ## Re-entrant refresh -/

/-- The number of status changes when `simulateOrderProgress` is applied again
and again to its own result, once per clock reading of `nows`. -/
def statusChanges (parseDate : String → Option Int) : List Int → Order → Nat
  | [], _ => 0
  | now :: rest, order =>
    (if (simulateOrderProgress parseDate now order).status ≠ order.status then 1 else 0) +
      statusChanges parseDate rest (simulateOrderProgress parseDate now order)

/-- The method `refreshOrderData(orderId)` together with the listener that
`setupGlobalEventListeners` registers for the tracker's own
`orderStatusUpdated` event: `dispatchEvent` runs the listener synchronously,
and the listener calls `refreshOrderData(event.detail.orderId)` when that id
is truthy.  Every call of `simulateOrderProgress` takes the next clock reading,
`clock tick`.  The recursion is bounded by `fuel`; `none` means the fuel ran
out.  As in `refreshOrderData`, `displayTrackingModal` and `showNotification`
are taken not to throw. -/
def refreshOrderDataNested (env : Env) (clock : Nat → Int) :
    Nat → JSVal → World → Nat → Option (World × Nat)
  | 0, _, _, _ => none
  | fuel + 1, orderId, w, tick =>
    let w1 : World := { w with orders := w.store }
    match findIndexM (refreshMatch env.user orderId) w1.orders with
    | .error _ => some (w1.notify .refreshFailed, tick)
    | .ok none => some (w1, tick)
    | .ok (some orderIndex) =>
      match w1.orders[orderIndex]? with
      | none => some (w1, tick)
      | some current =>
        let updatedOrder := simulateOrderProgress env.parseDate (clock tick) current
        if updatedOrder.status ≠ current.status then
          let w2 : World := { w1 with orders := w1.orders.set orderIndex updatedOrder }
          if env.storageWritable then
            let w3 : World :=
              { w2 with
                store := w2.orders
                events := w2.events ++ [{ orderId := orderId, status := updatedOrder.status }] }
            let afterListener :=
              if orderId.truthy then refreshOrderDataNested env clock fuel orderId w3 (tick + 1)
              else some (w3, tick + 1)
            match afterListener with
            | none => none
            | some (w4, tick4) =>
              some ({ w4 with
                      displayed := w4.displayed ++ [updatedOrder]
                      notices := w4.notices ++ [.statusUpdated updatedOrder.status] }, tick4)
          else some (w2.notify .refreshFailed, tick + 1)
        else some (w1.notify .statusCurrent, tick + 1)

/-! ## The specification's algorithm -/

/-- The status sequence as the specification lists it. -/
def sequence : List JSVal :=
  [.str "confirmed", .str "preparing", .str "out_for_delivery", .str "delivered"]

/-- The operation `computeProgressedStatus(order, now)` in the specification's
words: delivered and cancelled orders are returned as they are; otherwise
`elapsedMinutes = floor((now - createdAt) / 60000)`, `stageIndex` is the
position of the status in the sequence, `targetIndex =
min(floor(elapsedMinutes / 8), 3)`, and the order is copied with
`status = sequence[targetIndex]` when `targetIndex > stageIndex`.  An order
without a valid creation time has no elapsed time and stays as it is. -/
def computeProgressedStatus (parseDate : String → Option Int) (now : Int)
    (order : Order) : Order :=
  if order.status = .str "delivered" ∨ order.status = .str "cancelled" then order
  else
    match orderTime parseDate order with
    | none => order
    | some createdAt =>
      let elapsedMinutes : Int := (now - createdAt) / 60000
      let stageIndex : Nat := sequence.indexOf order.status
      let targetIndex : Int := min (elapsedMinutes / 8) 3
      if targetIndex > (stageIndex : Int) then
        { order with status := sequence.getD targetIndex.toNat .undefined }
      else order

/-- The label of an estimate of `n` minutes. -/
def minutesLabel (n : Int) : String :=
  "~" ++ toString n ++ " minutes remaining"

/-- The calculator `estimatedTimeRemaining(status, createdAt, now)` in the
specification's words: a per-stage countdown with a floor over
`elapsed = floor((now - createdAt) / 60000)`, the labels "Delivered" and
"Order Cancelled", and no estimate for any other status. -/
def estimatedTimeRemaining (status : JSVal) (createdAt now : Int) : Option String :=
  let elapsed : Int := (now - createdAt) / 60000
  if status = .str "confirmed" then some (minutesLabel (max 5 (45 - min elapsed 15)))
  else if status = .str "preparing" then some (minutesLabel (max 5 (30 - min (elapsed - 15) 15)))
  else if status = .str "out_for_delivery" then
    some (minutesLabel (max 2 (15 - min (elapsed - 30) 15)))
  else if status = .str "delivered" then some "Delivered"
  else if status = .str "cancelled" then some "Order Cancelled"
  else none

/-- Whether `simulateOrderProgress` advances the status of the order that the
lookup of `refreshOrderData` finds; `false` when the lookup finds none. -/
def advancesFoundOrder (env : Env) (orderId : JSVal) (w : World) : Bool :=
  match findIndexM (refreshMatch env.user orderId) w.store with
  | .ok (some i) =>
    match w.store[i]? with
    | some current =>
      decide ((simulateOrderProgress env.parseDate env.now current).status ≠ current.status)
    | none => false
  | _ => false

/-- The five statuses of the data model. -/
def knownStatuses : List String :=
  ["confirmed", "preparing", "out_for_delivery", "delivered", "cancelled"]

/-- The invariant of the timer state: the running timers are exactly the one
`this.refreshInterval` refers to, if any, and handles are positive and fresh. -/
def TimerInv (s : TimerState) : Prop :=
  1 ≤ s.nextHandle ∧
    match s.refreshInterval with
    | none => s.active = []
    | some handle =>
      1 ≤ handle ∧ handle < s.nextHandle ∧
        ∃ orderId, s.active = [{ handle := handle, orderId := orderId, delay := 30000 }]

/-- The numeric value of a `total` field; `0` for a value that is not a number. -/
def totalValue : JSVal → Int
  | .num n => n
  | _ => 0

/-- Order `a` is at least as recent as order `b`, both with a valid `date`. -/
def atLeastAsRecent (parseDate : String → Option Int) (a b : Order) : Prop :=
  ∃ ta tb, toDate parseDate a.date = some ta ∧ toDate parseDate b.date = some tb ∧ tb ≤ ta

/-! ## Sample data -/

/-- A host parser that knows one ISO timestamp (midnight UTC, 1 January 2024). -/
def sampleParseDate (s : String) : Option Int :=
  if s = "2024-01-01T00:00:00.000Z" then some 1704067200000 else none

/-- An order placed at midnight UTC on 1 January 2024 by user 7. -/
def sampleOrder (status : String) : Order :=
  { id := .num 1001
    userId := .num 7
    createdAt := .str "2024-01-01T00:00:00.000Z"
    date := .undefined
    status := .str status
    items := [{ name := .str "Paneer Tikka", price := .num 250, quantity := .num 2,
                image := .undefined }]
    total := .num 500
    deliveryAddress := .str "12 Park Street"
    specialInstructions := .undefined }

/-- Milliseconds since the epoch, `minutes` minutes after `sampleOrder` was placed. -/
def sampleNow (minutes : Int) : Int :=
  1704067200000 + minutes * 60000

/-- An order of another customer (user 9), already being prepared. -/
def sampleOtherOrder : Order :=
  { sampleOrder "preparing" with id := .num 1000, userId := .num 9 }

/-- Surroundings `minutes` minutes after `sampleOrder` was placed, with a
writable store. -/
def sampleEnv (minutes : Int) (user : Option User) : Env :=
  { now := sampleNow minutes
    parseDate := sampleParseDate
    user := user
    storageWritable := true }

/-- The surroundings of `sampleEnv` with a store that rejects every write. -/
def sampleFullEnv (minutes : Int) (user : Option User) : Env :=
  { sampleEnv minutes user with storageWritable := false }

/-- A freshly loaded tracker over the stored list `orders`. -/
def sampleWorld (orders : List Order) : World :=
  { store := orders, orders := orders, events := [], notices := [], displayed := [] }

/-- Three orders of user 7 and one of user 9, dated with millisecond timestamps. -/
def sampleHistory : HistoryState :=
  { store := []
    orders :=
      [{ sampleOrder "delivered" with id := .num 1, date := .num 2000, total := .num 300 },
       { sampleOrder "cancelled" with id := .num 2, date := .num 5000, total := .num 450 },
       { sampleOtherOrder with id := .num 3, date := .num 9000 },
       { sampleOrder "preparing" with id := .num 4, date := .num 3000, total := .num 250 }]
    notices := [] }

/-- A host `toLowerCase` that knows one mixed-case address. -/
def sampleToLowerCase (s : String) : String :=
  if s = "A@B.com" then "a@b.com" else s

/-- Surroundings for a registration at midnight UTC on 1 January 2024. -/
def sampleAuthEnv : AuthEnv :=
  { now := 1704067200000
    toISOString := fun _ => "2024-01-01T00:00:00.000Z"
    toLowerCase := sampleToLowerCase
    storageWritable := true }

/-- A store with one registered customer, alice, whose email is a@b.com. -/
def sampleAuthState : AuthState :=
  { users :=
      [{ id := .num 1, username := .str "alice", email := .str "a@b.com",
         password := .str "wonderland", role := .str "customer",
         createdAt := .str "2023-12-31T00:00:00.000Z", status := .str "active" }]
    currentUser := none
    savedUser := none }

/-- The user record that registering bob with the address A@B.com creates. -/
def sampleBob : StoredUser :=
  { id := .num 1704067200000, username := .str "bob", email := .str "a@b.com",
    password := .str "secret1", role := .str "customer",
    createdAt := .str "2024-01-01T00:00:00.000Z", status := .str "active" }

/-- A store holding another customer's order and two orders of user 7. -/
def sampleStoredHistory : HistoryState :=
  { store := [sampleOrder "delivered", sampleOtherOrder, sampleOrder "preparing"]
    orders := [sampleOrder "delivered", sampleOtherOrder, sampleOrder "preparing"]
    notices := [] }

/-- A clock that reads 15 min 59.999 s after `sampleOrder` was placed at its
first reading and 16 min at every later one. -/
def sampleCrossingClock (k : Nat) : Int :=
  if k = 0 then 1704067200000 + 959999 else 1704067200000 + 960000

/-- The user record that registering "alice " (with a trailing space) creates. -/
def sampleSecondAlice : StoredUser :=
  { id := .num 1704067200000, username := .str "alice", email := .str "alice2@b.com",
    password := .str "secret1", role := .str "customer",
    createdAt := .str "2024-01-01T00:00:00.000Z", status := .str "active" }

/-- The user record that registering carol with the address A@B.com creates. -/
def sampleCarol : StoredUser :=
  { id := .num 1704067200000, username := .str "carol", email := .str "a@b.com",
    password := .str "secret1", role := .str "customer",
    createdAt := .str "2024-01-01T00:00:00.000Z", status := .str "active" }

/-! ## Sanity checks of the embedding -/

example : ((-1 : Int) / 8) = -1 := by decide
example : indexOf statusFlow (.str "out_for_delivery") = 2 := by decide
example : indexOf statusFlow (.str "cancelled") = -1 := by decide
example : looseMatch (.num 5) (.str "5") = .ok true := by decide
example : statusChanges sampleParseDate [sampleNow 40, sampleNow 0, sampleNow 99]
    (sampleOrder "cancelled") = 1 := by decide
example : statusChanges sampleParseDate [sampleNow 0, sampleNow 8, sampleNow 16, sampleNow 24]
    (sampleOrder "cancelled") = 4 := by decide
example : ((refreshOrderDataNested (sampleEnv 0 (some { id := .num 7 }))
    (fun k => sampleNow (8 * (k + 1))) 5 (.num 1001) (sampleWorld [sampleOrder "confirmed"]) 0).map
    fun r => (r.1.store, r.1.events.length, r.2)) = some ([sampleOrder "delivered"], 3, 4) := by
  decide
example : isValidEmail "A@B.com" = true := by decide
example : isValidEmail "a@b" = false := by decide
example : isValidEmail "a b@c.d" = false := by decide
example : isValidEmail "a@b@c.d" = false := by decide
example : isValidEmail "a@b.c.d" = true := by decide
example : trim "  bob " = "bob" := by decide
example : utf16Length "bob" = 3 := by decide
example : ((OrderHistory.loadHistory sampleParseDate (some { id := .num 7 }) sampleHistory).1.map
    Order.id) = [.num 2, .num 4, .num 1] := by decide
example : (OrderHistory.getOrderStats sampleParseDate (some { id := .num 7 }) sampleHistory).1 =
    { totalOrders := 3, totalSpent := .number (some 1000), deliveredOrders := 1,
      pendingOrders := 2 } := by decide
example : calculateProgressPercentage (.str "preparing") = .value 50 := by decide
example : calculateProgressPercentage (.str "pending") = .value 0 := by decide
example : calculateProgressPercentage .undefined = .value 0 := by decide
example : calculateProgressPercentage (.str "toString") = .prototypeMember "toString" := by decide
example : calculateEstimatedTime sampleParseDate (sampleNow 9) (.str "preparing")
    (.str "2024-01-01T00:00:00.000Z") = some "~36 minutes remaining" := by decide
example : calculateEstimatedTime sampleParseDate (sampleNow 9) (.str "confirmed") .undefined
    = some "~NaN minutes remaining" := by decide
example : estimatedTimeRemaining (.str "out_for_delivery") 0 (20 * 60000)
    = some "~25 minutes remaining" := by decide
example : (simulateOrderProgress sampleParseDate (sampleNow 8) (sampleOrder "confirmed")).status
    = .str "preparing" := by decide
example : (simulateOrderProgress sampleParseDate (sampleNow 40) (sampleOrder "cancelled")).status
    = .str "delivered" := by decide
example : computeProgressedStatus sampleParseDate (sampleNow 17) (sampleOrder "confirmed")
    = simulateOrderProgress sampleParseDate (sampleNow 17) (sampleOrder "confirmed") := by decide


/-! ## Lemmas on the status sequence -/

theorem indexOf_statusFlow (v : JSVal) :
    indexOf statusFlow v =
      if v = .str "confirmed" then 0
      else if v = .str "preparing" then 1
      else if v = .str "out_for_delivery" then 2
      else if v = .str "delivered" then 3
      else -1 := by
  rfl

theorem indexOf_statusFlow_bounds (v : JSVal) :
    -1 ≤ indexOf statusFlow v ∧ indexOf statusFlow v ≤ 3 := by
  rw [indexOf_statusFlow]
  split_ifs <;> omega

theorem indexOf_elemAt (k : Int) (h0 : 0 ≤ k) (h3 : k ≤ 3) :
    indexOf statusFlow (elemAt statusFlow k) = k := by
  interval_cases k <;> decide

theorem elemAt_indexOf (v : JSVal) (h : 0 ≤ indexOf statusFlow v) :
    elemAt statusFlow (indexOf statusFlow v) = v := by
  rw [indexOf_statusFlow] at h ⊢
  split_ifs at h ⊢ with h1 h2 h3 h4
  · rw [h1]; decide
  · rw [h2]; decide
  · rw [h3]; decide
  · rw [h4]; decide
  · omega

theorem elemAt_eq_getD (k : Int) (h0 : 0 ≤ k) (h3 : k ≤ 3) :
    elemAt statusFlow k = sequence.getD k.toNat .undefined := by
  interval_cases k <;> decide

theorem expectedProgress_le (m : Int) : expectedProgress m ≤ 3 := by
  unfold expectedProgress statusFlow
  simp

theorem expectedProgress_eq (m : Int) : expectedProgress m = min (m / 8) 3 := by
  unfold expectedProgress statusFlow
  simp

theorem expectedProgress_mono {a b : Int} (h : a ≤ b) :
    expectedProgress a ≤ expectedProgress b := by
  rw [expectedProgress_eq, expectedProgress_eq]
  omega

theorem statusFlow_length : ((statusFlow.length : Int) - 1) = 3 := by
  decide

/-- Unfolding of `simulateOrderProgress` with the constants evaluated. -/
theorem simulateOrderProgress_unfold (parseDate : String → Option Int) (now : Int)
    (order : Order) :
    simulateOrderProgress parseDate now order =
      if indexOf statusFlow order.status < 3 then
        match orderTime parseDate order with
        | none => order
        | some t =>
          if expectedProgress ((now - t) / 60000) > indexOf statusFlow order.status then
            { order with status := elemAt statusFlow (expectedProgress ((now - t) / 60000)) }
          else order
      else order := by
  unfold simulateOrderProgress minutesDiff
  rw [statusFlow_length]
  cases orderTime parseDate order <;> rfl


theorem sequence_indexOf (v : JSVal) (h : 0 ≤ indexOf statusFlow v) :
    ((sequence.indexOf v : Nat) : Int) = indexOf statusFlow v := by
  rw [indexOf_statusFlow] at h ⊢
  split_ifs at h ⊢ with h1 h2 h3 h4
  · rw [h1]; decide
  · rw [h2]; decide
  · rw [h3]; decide
  · rw [h4]; decide
  · omega

/-- C1: for every order whose status is confirmed, preparing or out_for_delivery
and every current time, `simulateOrderProgress` returns what the
specification's algorithm returns: with `elapsedMinutes = floor((now -
createdAt) / 60000)`, `stageIndex` the position of the status in the sequence
and `targetIndex = min(floor(elapsedMinutes / 8), 3)`, a copy of the order with
`status = sequence[targetIndex]` when `targetIndex > stageIndex`, and the order
unchanged otherwise. -/
theorem simulateOrderProgress_refines_spec (parseDate : String → Option Int) (now : Int)
    (order : Order)
    (hs : order.status = .str "confirmed" ∨ order.status = .str "preparing" ∨
      order.status = .str "out_for_delivery") :
    simulateOrderProgress parseDate now order =
      computeProgressedStatus parseDate now order := by
  have hidx : 0 ≤ indexOf statusFlow order.status ∧ indexOf statusFlow order.status < 3 := by
    rcases hs with h | h | h <;> rw [h] <;> decide
  have hnot : ¬ (order.status = .str "delivered" ∨ order.status = .str "cancelled") := by
    rcases hs with h | h | h <;> rw [h] <;> decide
  rw [simulateOrderProgress_unfold]
  unfold computeProgressedStatus
  rw [if_pos hidx.2, if_neg hnot]
  cases orderTime parseDate order with
  | none => rfl
  | some t =>
    simp only []
    rw [sequence_indexOf _ hidx.1, ← expectedProgress_eq]
    by_cases hgt : expectedProgress ((now - t) / 60000) > indexOf statusFlow order.status
    · rw [if_pos hgt, if_pos hgt,
        elemAt_eq_getD _ (by omega) (expectedProgress_le _)]
    · rw [if_neg hgt, if_neg hgt]


theorem mem_sequence_iff (v : JSVal) : v ∈ sequence ↔ 0 ≤ indexOf statusFlow v := by
  rw [indexOf_statusFlow]
  unfold sequence
  simp only [List.mem_cons, List.mem_singleton, List.not_mem_nil, or_false]
  split_ifs with h1 h2 h3 h4 <;> simp_all

theorem indexOf_simulateOrderProgress (parseDate : String → Option Int) (now : Int)
    (order : Order) (h : 0 ≤ indexOf statusFlow order.status) :
    indexOf statusFlow (simulateOrderProgress parseDate now order).status =
      match orderTime parseDate order with
      | none => indexOf statusFlow order.status
      | some t => max (indexOf statusFlow order.status) (expectedProgress ((now - t) / 60000)) := by
  rw [simulateOrderProgress_unfold]
  have hb := (indexOf_statusFlow_bounds order.status).2
  cases horder : orderTime parseDate order with
  | none => simp
  | some t =>
    have he := expectedProgress_le ((now - t) / 60000)
    simp only []
    by_cases hlt : indexOf statusFlow order.status < 3
    · rw [if_pos hlt]
      by_cases hgt : expectedProgress ((now - t) / 60000) > indexOf statusFlow order.status
      · rw [if_pos hgt]
        simp only []
        rw [indexOf_elemAt _ (by omega) he, max_eq_right (le_of_lt hgt)]
      · rw [if_neg hgt, max_eq_left (by omega)]
    · rw [if_neg hlt, max_eq_left (by omega)]

/-- C4: the status never regresses.  For every order whose status is in the
sequence and every current time (also one before the creation time), the
status returned by `simulateOrderProgress` is at the same or a later position
of the sequence than the status of the input. -/
theorem status_never_regresses (parseDate : String → Option Int) (now : Int)
    (order : Order)
    (hin : order.status ∈ sequence) :
    indexOf statusFlow order.status ≤
      indexOf statusFlow (simulateOrderProgress parseDate now order).status := by
  rw [indexOf_simulateOrderProgress _ _ _ ((mem_sequence_iff _).1 hin)]
  cases orderTime parseDate order with
  | none => exact le_refl _
  | some t => exact le_max_left _ _

/-- C5: delivered is terminal.  For every delivered order and every current
time, `simulateOrderProgress` returns the order unchanged. -/
theorem delivered_is_terminal (parseDate : String → Option Int) (now : Int)
    (order : Order)
    (hd : order.status = .str "delivered") :
    simulateOrderProgress parseDate now order = order := by
  rw [simulateOrderProgress_unfold, hd]
  rfl

theorem orderTime_with_status (parseDate : String → Option Int) (order : Order) (s : JSVal) :
    orderTime parseDate { order with status := s } = orderTime parseDate order := rfl

/-- C6: idempotence.  For every order, whatever its status, and every current
time, applying `simulateOrderProgress` to its own result with the same current
time returns that result unchanged. -/
theorem simulateOrderProgress_idempotent (parseDate : String → Option Int) (now : Int)
    (order : Order) :
    simulateOrderProgress parseDate now (simulateOrderProgress parseDate now order) =
      simulateOrderProgress parseDate now order := by
  have hlow := (indexOf_statusFlow_bounds order.status).1
  rw [simulateOrderProgress_unfold parseDate now order]
  by_cases hlt : indexOf statusFlow order.status < 3
  · rw [if_pos hlt]
    cases horder : orderTime parseDate order with
    | none =>
      simp only []
      rw [simulateOrderProgress_unfold, if_pos hlt, horder]
    | some t =>
      have he := expectedProgress_le ((now - t) / 60000)
      simp only []
      by_cases hgt : expectedProgress ((now - t) / 60000) > indexOf statusFlow order.status
      · rw [if_pos hgt, simulateOrderProgress_unfold, orderTime_with_status, horder]
        simp only []
        rw [indexOf_elemAt _ (by omega) he]
        simp
      · rw [if_neg hgt, simulateOrderProgress_unfold, if_pos hlt, horder]
        simp only []
        rw [if_neg hgt]
  · rw [if_neg hlt, simulateOrderProgress_unfold, if_neg hlt]

/-- C7: monotonicity in time.  For every order whose status is confirmed,
preparing or out_for_delivery and all times `now1 ≤ now2`, the target index
`min(floor(floor((now - createdAt) / 60000) / 8), 3)` at `now2` is at least the
one at `now1`, and the status returned at `now2` is not earlier in the sequence
than the status returned at `now1`. -/
theorem progress_monotone_in_time (parseDate : String → Option Int) (now1 now2 : Int)
    (order : Order)
    (hs : order.status = .str "confirmed" ∨ order.status = .str "preparing" ∨
      order.status = .str "out_for_delivery")
    (hle : now1 ≤ now2) :
    (∀ t, orderTime parseDate order = some t →
        expectedProgress ((now1 - t) / 60000) ≤ expectedProgress ((now2 - t) / 60000)) ∧
      indexOf statusFlow (simulateOrderProgress parseDate now1 order).status ≤
        indexOf statusFlow (simulateOrderProgress parseDate now2 order).status := by
  have hmono : ∀ t : Int,
      expectedProgress ((now1 - t) / 60000) ≤ expectedProgress ((now2 - t) / 60000) := by
    intro t
    apply expectedProgress_mono
    omega
  have hidx : 0 ≤ indexOf statusFlow order.status := by
    rcases hs with h | h | h <;> rw [h] <;> decide
  refine ⟨fun t _ => hmono t, ?_⟩
  rw [indexOf_simulateOrderProgress _ _ _ hidx, indexOf_simulateOrderProgress _ _ _ hidx]
  cases orderTime parseDate order with
  | none => exact le_refl _
  | some t => exact max_le_max (le_refl _) (hmono t)

/-- C3, as amended: transitions only move forward along the sequence, and may
skip steps.  For every order whose status is in the sequence and every
current time, whenever `simulateOrderProgress` changes the status, the new
status is an element of the sequence at a strictly later position than the old
one, namely `sequence[min(floor(elapsedMinutes / 8), 3)]`. -/
theorem status_change_moves_forward (parseDate : String → Option Int) (now : Int)
    (order : Order)
    (hin : order.status ∈ sequence)
    (hch : (simulateOrderProgress parseDate now order).status ≠ order.status) :
    (simulateOrderProgress parseDate now order).status ∈ sequence ∧
      indexOf statusFlow order.status <
        indexOf statusFlow (simulateOrderProgress parseDate now order).status ∧
      ∃ t, orderTime parseDate order = some t ∧
        (simulateOrderProgress parseDate now order).status =
          elemAt statusFlow (min ((now - t) / 60000 / 8) 3) := by
  have hidx := (mem_sequence_iff _).1 hin
  rw [mem_sequence_iff]
  have hb := (indexOf_statusFlow_bounds order.status).2
  rw [simulateOrderProgress_unfold] at hch ⊢
  by_cases hlt : indexOf statusFlow order.status < 3
  · rw [if_pos hlt] at hch ⊢
    cases horder : orderTime parseDate order with
    | none => rw [horder] at hch; exact absurd rfl hch
    | some t =>
      have he := expectedProgress_le ((now - t) / 60000)
      rw [horder] at hch
      simp only [] at hch ⊢
      by_cases hgt : expectedProgress ((now - t) / 60000) > indexOf statusFlow order.status
      · rw [if_pos hgt]
        simp only []
        rw [indexOf_elemAt _ (by omega) he]
        refine ⟨by omega, hgt, t, rfl, ?_⟩
        rw [expectedProgress_eq]
      · rw [if_neg hgt] at hch
        exact absurd rfl hch
  · rw [if_neg hlt] at hch
    exact absurd rfl hch


/-! ## Lemmas on the lookups -/

theorem findM_some (p : Order → Except JSError Bool) :
    ∀ (l : List Order) (o : Order), findM p l = .ok (some o) →
      p o = .ok true ∧
        ∃ before after, l = before ++ o :: after ∧ ∀ q ∈ before, p q = .ok false := by
  intro l
  induction l with
  | nil => intro o h; simp [findM] at h
  | cons x rest ih =>
    intro o h
    unfold findM at h
    cases hp : p x with
    | error e => rw [hp] at h; simp at h
    | ok b =>
      rw [hp] at h
      cases b with
      | true =>
        simp only [Except.ok.injEq, Option.some.injEq] at h
        subst h
        exact ⟨hp, [], rest, rfl, by simp⟩
      | false =>
        simp only [] at h
        obtain ⟨h1, before, after, h2, h3⟩ := ih o h
        refine ⟨h1, x :: before, after, by rw [h2]; rfl, ?_⟩
        intro q hq
        rcases List.mem_cons.1 hq with rfl | hq
        · exact hp
        · exact h3 q hq

theorem findM_not_found (p : Order → Except JSError Bool) :
    ∀ (l : List Order), (∀ o ∈ l, p o ≠ .ok true) → ∀ o, findM p l ≠ .ok (some o) := by
  intro l hl o h
  obtain ⟨h1, before, after, h2, _⟩ := findM_some p l o h
  exact hl o (by rw [h2]; simp) h1

theorem findM_all_false (p : Order → Except JSError Bool) :
    ∀ (l : List Order), (∀ o ∈ l, p o = .ok false) → findM p l = .ok none := by
  intro l
  induction l with
  | nil => intro _; rfl
  | cons x rest ih =>
    intro h
    unfold findM
    rw [h x (by simp)]
    exact ih (fun o ho => h o (by simp [ho]))

theorem findIndexM_some (p : Order → Except JSError Bool) :
    ∀ (l : List Order) (i : Nat), findIndexM p l = .ok (some i) →
      ∃ o, l[i]? = some o ∧ p o = .ok true := by
  intro l
  induction l with
  | nil => intro i h; simp [findIndexM] at h
  | cons x rest ih =>
    intro i h
    unfold findIndexM at h
    cases hp : p x with
    | error e => rw [hp] at h; simp at h
    | ok b =>
      rw [hp] at h
      cases b with
      | true =>
        simp only [Except.ok.injEq, Option.some.injEq] at h
        subst h
        exact ⟨x, by simp, hp⟩
      | false =>
        simp only [] at h
        cases hr : findIndexM p rest with
        | error e => rw [hr] at h; simp at h
        | ok r =>
          rw [hr] at h
          cases r with
          | none => simp at h
          | some j =>
            simp only [Except.ok.injEq, Option.some.injEq] at h
            subst h
            obtain ⟨o, h1, h2⟩ := ih j hr
            exact ⟨o, by simpa using h1, h2⟩

theorem findIndexM_not_found (p : Order → Except JSError Bool) (l : List Order)
    (hl : ∀ o ∈ l, p o ≠ .ok true) : ∀ i, findIndexM p l ≠ .ok (some i) := by
  intro i h
  obtain ⟨o, h1, h2⟩ := findIndexM_some p l i h
  exact hl o (List.getElem?_mem h1) h2

theorem findIndexM_all_false (p : Order → Except JSError Bool) :
    ∀ (l : List Order), (∀ o ∈ l, p o = .ok false) → findIndexM p l = .ok none := by
  intro l
  induction l with
  | nil => intro _; rfl
  | cons x rest ih =>
    intro h
    unfold findIndexM
    rw [h x (by simp), ih (fun o ho => h o (by simp [ho]))]

theorem looseMatch_total (a b : JSVal) (hb : b.toStr? ≠ none) :
    ∃ c, looseMatch a b = .ok c := by
  unfold looseMatch
  by_cases h : a = b
  · exact ⟨true, by rw [if_pos h]⟩
  · rw [if_neg h]
    cases hs : b.toStr? with
    | none => exact absurd hs hb
    | some sb => exact ⟨_, rfl⟩

theorem looseMatch_false_toStr (a b : JSVal) (h : looseMatch a b = .ok false) :
    b.toStr? ≠ none := by
  unfold looseMatch at h
  by_cases hab : a = b
  · rw [if_pos hab] at h; simp at h
  · rw [if_neg hab] at h
    intro hs
    rw [hs] at h
    simp at h

theorem userOrderMatch_true_iff (orderId userId : JSVal) (o : Order) :
    userOrderMatch orderId userId o = .ok true ↔
      looseMatch o.id orderId = .ok true ∧ looseMatch o.userId userId = .ok true := by
  unfold userOrderMatch
  cases h1 : looseMatch o.id orderId with
  | error e => simp
  | ok b1 =>
    cases h2 : looseMatch o.userId userId with
    | error e => simp
    | ok b2 => cases b1 <;> cases b2 <;> simp

theorem refreshMatch_true_iff (user : User) (orderId : JSVal) (o : Order) :
    refreshMatch (some user) orderId o = .ok true ↔
      looseMatch o.id orderId = .ok true ∧ looseMatch o.userId user.id = .ok true := by
  cases h1 : looseMatch o.id orderId with
  | error e => simp [refreshMatch, h1]
  | ok b1 =>
    cases h2 : looseMatch o.userId user.id with
    | error e => simp [refreshMatch, h1, h2]
    | ok b2 => cases b1 <;> cases b2 <;> simp [refreshMatch, h1, h2]

theorem userOrderMatch_total (orderId userId : JSVal) (o : Order)
    (h1 : orderId.toStr? ≠ none) (h2 : userId.toStr? ≠ none) :
    ∃ c, userOrderMatch orderId userId o = .ok c := by
  obtain ⟨c1, hc1⟩ := looseMatch_total o.id orderId h1
  obtain ⟨c2, hc2⟩ := looseMatch_total o.userId userId h2
  exact ⟨c1 && c2, by unfold userOrderMatch; rw [hc1, hc2]⟩

theorem refreshMatch_total (user : User) (orderId : JSVal) (o : Order)
    (h1 : orderId.toStr? ≠ none) (h2 : user.id.toStr? ≠ none) :
    ∃ c, refreshMatch (some user) orderId o = .ok c := by
  obtain ⟨c1, hc1⟩ := looseMatch_total o.id orderId h1
  obtain ⟨c2, hc2⟩ := looseMatch_total o.userId user.id h2
  exact ⟨c1 && c2, by simp [refreshMatch, hc1, hc2]⟩


/-- The two outcomes of `refreshOrderData` when the lookup finds no order. -/
theorem refreshOrderData_of_not_found (env : Env) (orderId : JSVal) (w : World)
    (h : ∀ i, findIndexM (refreshMatch env.user orderId) w.store ≠ .ok (some i)) :
    refreshOrderData env orderId w = { w with orders := w.store } ∨
      refreshOrderData env orderId w =
        { w with orders := w.store, notices := w.notices ++ [.refreshFailed] } := by
  cases hf : findIndexM (refreshMatch env.user orderId) w.store with
  | error e =>
    right
    unfold refreshOrderData
    simp only [hf]
    rfl
  | ok r =>
    cases r with
    | none =>
      left
      unfold refreshOrderData
      simp only [hf]
    | some i => exact absurd hf (h i)

theorem refreshOrderData_of_none (env : Env) (orderId : JSVal) (w : World)
    (h : findIndexM (refreshMatch env.user orderId) w.store = .ok none) :
    refreshOrderData env orderId w = { w with orders := w.store } := by
  unfold refreshOrderData
  simp only [h]

theorem refreshOrderData_of_changed (env : Env) (orderId : JSVal) (w : World)
    (i : Nat) (current : Order)
    (hfind : findIndexM (refreshMatch env.user orderId) w.store = .ok (some i))
    (hcur : w.store[i]? = some current)
    (hchg : (simulateOrderProgress env.parseDate env.now current).status ≠ current.status)
    (hwr : env.storageWritable = true) :
    refreshOrderData env orderId w =
      { store := w.store.set i (simulateOrderProgress env.parseDate env.now current)
        orders := w.store.set i (simulateOrderProgress env.parseDate env.now current)
        events := w.events ++
          [{ orderId := orderId
             status := (simulateOrderProgress env.parseDate env.now current).status }]
        notices := w.notices ++
          [.statusUpdated (simulateOrderProgress env.parseDate env.now current).status]
        displayed := w.displayed ++ [simulateOrderProgress env.parseDate env.now current] } := by
  unfold refreshOrderData
  simp only [hfind, hcur, hwr, if_true]
  rw [if_pos hchg]

/-- C8: a refresh by a user who does not own the order finds nothing.  For a
stored order with the requested id (ids being unique in the store) and a
current user whose id does not match the order's `userId`, the lookup of
`refreshOrderData` finds no order, the stored list is left unchanged, no
status event is emitted and no tracking view is shown, whatever the current
time; for a requested id that is not nullish the call does nothing but reload
`this.orders`. -/
theorem refresh_wrong_user_not_found (env : Env) (orderId : JSVal) (w : World) (user : User)
    (order : Order)
    (huser : env.user = some user)
    (hmem : order ∈ w.store)
    (hid : looseMatch order.id orderId = .ok true)
    (huniq : ∀ o ∈ w.store, looseMatch o.id orderId = .ok true → o = order)
    (hwrong : looseMatch order.userId user.id = .ok false) :
    (∀ i, findIndexM (refreshMatch env.user orderId) w.store ≠ .ok (some i)) ∧
      (refreshOrderData env orderId w).store = w.store ∧
      (refreshOrderData env orderId w).events = w.events ∧
      (refreshOrderData env orderId w).displayed = w.displayed ∧
      (orderId.toStr? ≠ none →
        refreshOrderData env orderId w = { w with orders := w.store }) := by
  have hno : ∀ o ∈ w.store, refreshMatch env.user orderId o ≠ .ok true := by
    intro o ho ht
    rw [huser, refreshMatch_true_iff] at ht
    have := huniq o ho ht.1
    subst this
    rw [hwrong] at ht
    simp at ht
  have hnf := findIndexM_not_found _ _ hno
  refine ⟨hnf, ?_, ?_, ?_, ?_⟩
  · rcases refreshOrderData_of_not_found env orderId w hnf with h | h <;> rw [h]
  · rcases refreshOrderData_of_not_found env orderId w hnf with h | h <;> rw [h]
  · rcases refreshOrderData_of_not_found env orderId w hnf with h | h <;> rw [h]
  · intro hoid
    apply refreshOrderData_of_none
    apply findIndexM_all_false
    intro o ho
    obtain ⟨c, hc⟩ := refreshMatch_total user orderId o hoid
      (looseMatch_false_toStr _ _ hwrong)
    rw [huser, hc]
    cases c with
    | false => rfl
    | true => exact absurd (by rw [huser]; exact hc) (hno o ho)

theorem track_displayed (env : Env) (orderId : JSVal) (w : World) :
    (track env orderId w).displayed = w.displayed ∨
      ∃ user order, env.user = some user ∧
        findUserOrder w.orders orderId user.id = .ok (some order) ∧
        (track env orderId w).displayed = w.displayed ++ [order] := by
  unfold track
  by_cases ht : orderId.truthy
  · simp only [ht, Bool.not_true, Bool.false_eq_true, if_false]
    cases hu : env.user with
    | none => left; rfl
    | some user =>
      simp only []
      cases hf : findUserOrder w.orders orderId user.id with
      | error e => left; rfl
      | ok r =>
        cases r with
        | none => left; rfl
        | some order => right; exact ⟨user, order, rfl, hf, rfl⟩
  · left
    simp [ht, World.notify]

theorem findM_first_match (p : Order → Except JSError Bool) (o : Order) (after : List Order) :
    ∀ (before : List Order), (∀ q ∈ before, p q = .ok false) → p o = .ok true →
      findM p (before ++ o :: after) = .ok (some o) := by
  intro before
  induction before with
  | nil =>
    intro _ ho
    simp only [List.nil_append]
    unfold findM
    rw [ho]
  | cons x rest ih =>
    intro hb ho
    simp only [List.cons_append]
    unfold findM
    rw [hb x (by simp)]
    exact ih (fun q hq => hb q (by simp [hq])) ho

theorem track_of_found (env : Env) (orderId : JSVal) (w : World) (user : User) (order : Order)
    (ht : orderId.truthy = true) (hu : env.user = some user)
    (hf : findUserOrder w.orders orderId user.id = .ok (some order)) :
    track env orderId w = { w with displayed := w.displayed ++ [order] } := by
  unfold track
  simp only [ht, Bool.not_true, Bool.false_eq_true, if_false, hu, hf]

/-- C9: an order is trackable only by its owner.  `findUserOrder` returns an
order only if its id matches the requested id and its `userId` matches the
requesting user's id, and then it is the first such order of the list.  For
ids that are not nullish it does return the first order of the list that
satisfies both, and `track` shows that order to the user with that id.  When
no order satisfies both it returns no order, and `track` shows no tracking
view. -/
theorem findUserOrder_owner_only (orders : List Order) (orderId userId : JSVal) :
    (∀ o, findUserOrder orders orderId userId = .ok (some o) →
        looseMatch o.id orderId = .ok true ∧ looseMatch o.userId userId = .ok true ∧
        ∃ before after, orders = before ++ o :: after ∧
          ∀ q ∈ before, ¬ (looseMatch q.id orderId = .ok true ∧
            looseMatch q.userId userId = .ok true)) ∧
      (∀ before o after, orders = before ++ o :: after →
        orderId.toStr? ≠ none → userId.toStr? ≠ none →
        (∀ q ∈ before, ¬ (looseMatch q.id orderId = .ok true ∧
          looseMatch q.userId userId = .ok true)) →
        looseMatch o.id orderId = .ok true → looseMatch o.userId userId = .ok true →
        findUserOrder orders orderId userId = .ok (some o) ∧
        ∀ (env : Env) (w : World), orderId.truthy = true → w.orders = orders →
          env.user = some { id := userId } →
          track env orderId w = { w with displayed := w.displayed ++ [o] }) ∧
      ((∀ o ∈ orders, ¬ (looseMatch o.id orderId = .ok true ∧
            looseMatch o.userId userId = .ok true)) →
        (∀ o, findUserOrder orders orderId userId ≠ .ok (some o)) ∧
        (orderId.toStr? ≠ none → userId.toStr? ≠ none →
          findUserOrder orders orderId userId = .ok none) ∧
        ∀ (env : Env) (w : World), w.orders = orders → env.user = some { id := userId } →
          (track env orderId w).displayed = w.displayed) := by
  refine ⟨?_, ?_, ?_⟩
  · intro o h
    obtain ⟨h1, before, after, h2, h3⟩ := findM_some _ _ _ h
    rw [userOrderMatch_true_iff] at h1
    refine ⟨h1.1, h1.2, before, after, h2, ?_⟩
    intro q hq hboth
    have := h3 q hq
    rw [(userOrderMatch_true_iff orderId userId q).2 hboth] at this
    simp at this
  · intro before o after hsplit h1 h2 hbefore hid huid
    have hfound : findUserOrder orders orderId userId = .ok (some o) := by
      rw [hsplit]
      apply findM_first_match
      · intro q hq
        obtain ⟨c, hc⟩ := userOrderMatch_total orderId userId q h1 h2
        rw [hc]
        cases c with
        | false => rfl
        | true => exact absurd ((userOrderMatch_true_iff _ _ _).1 hc) (hbefore q hq)
      · exact (userOrderMatch_true_iff _ _ _).2 ⟨hid, huid⟩
    refine ⟨hfound, ?_⟩
    intro env w ht hw hu
    exact track_of_found env orderId w { id := userId } o ht hu (by rw [hw]; exact hfound)
  · intro hnone
    have hno : ∀ o ∈ orders, userOrderMatch orderId userId o ≠ .ok true := by
      intro o ho ht
      exact hnone o ho ((userOrderMatch_true_iff _ _ _).1 ht)
    have hnf : ∀ o, findUserOrder orders orderId userId ≠ .ok (some o) :=
      findM_not_found _ _ hno
    refine ⟨hnf, ?_, ?_⟩
    · intro h1 h2
      apply findM_all_false
      intro o ho
      obtain ⟨c, hc⟩ := userOrderMatch_total orderId userId o h1 h2
      rw [hc]
      cases c with
      | false => rfl
      | true => exact absurd hc (hno o ho)
    · intro env w hw hu
      rcases track_displayed env orderId w with h | ⟨user, order, h1, h2, _⟩
      · exact h
      · rw [hu] at h1
        simp only [Option.some.injEq] at h1
        subst h1
        rw [hw] at h2
        exact absurd h2 (hnf order)

/-! ## Evaluations at the sample data -/

/-- C1 at the sample order, eight minutes after it was placed. -/
theorem simulateOrderProgress_refines_spec_witness :
    simulateOrderProgress sampleParseDate (sampleNow 8) (sampleOrder "confirmed") =
      computeProgressedStatus sampleParseDate (sampleNow 8) (sampleOrder "confirmed") :=
  simulateOrderProgress_refines_spec sampleParseDate (sampleNow 8) (sampleOrder "confirmed")
    (by decide)

/-- C2: a cancelled order does not stay cancelled.  Forty minutes after a
cancelled order was placed, `simulateOrderProgress` returns it with status
delivered (and at the moment it was placed, with status confirmed), and a
refresh by its owner writes the changed order to the store and emits an
event. -/
theorem cancelled_order_is_advanced :
    simulateOrderProgress sampleParseDate (sampleNow 40) (sampleOrder "cancelled") =
        sampleOrder "delivered" ∧
      simulateOrderProgress sampleParseDate (sampleNow 0) (sampleOrder "cancelled") =
        sampleOrder "confirmed" ∧
      (refreshOrderData (sampleEnv 40 (some { id := .num 7 })) (.num 1001)
          (sampleWorld [sampleOrder "cancelled"])).store = [sampleOrder "delivered"] ∧
      (refreshOrderData (sampleEnv 40 (some { id := .num 7 })) (.num 1001)
          (sampleWorld [sampleOrder "cancelled"])).events =
        [{ orderId := .num 1001, status := .str "delivered" }] := by
  decide

/-- C3 fails as stated: forty minutes after a confirmed order was placed its
status changes to delivered, which is three positions later in the sequence,
not the immediate successor. -/
theorem status_change_may_skip_steps :
    (simulateOrderProgress sampleParseDate (sampleNow 40) (sampleOrder "confirmed")).status ≠
        (sampleOrder "confirmed").status ∧
      (simulateOrderProgress sampleParseDate (sampleNow 40) (sampleOrder "confirmed")).status =
        .str "delivered" ∧
      indexOf statusFlow
          (simulateOrderProgress sampleParseDate (sampleNow 40) (sampleOrder "confirmed")).status ≠
        indexOf statusFlow (sampleOrder "confirmed").status + 1 := by
  decide

/-- C3 as amended, at the sample order forty minutes after it was placed. -/
theorem status_change_moves_forward_witness :
    indexOf statusFlow (sampleOrder "confirmed").status <
      indexOf statusFlow
        (simulateOrderProgress sampleParseDate (sampleNow 40) (sampleOrder "confirmed")).status :=
  (status_change_moves_forward sampleParseDate (sampleNow 40) (sampleOrder "confirmed")
    (by decide) (by decide)).2.1

/-- C4 at an order being prepared, read five minutes before its creation time. -/
theorem status_never_regresses_witness :
    indexOf statusFlow (sampleOrder "preparing").status ≤
      indexOf statusFlow
        (simulateOrderProgress sampleParseDate (sampleNow (-5)) (sampleOrder "preparing")).status :=
  status_never_regresses sampleParseDate (sampleNow (-5)) (sampleOrder "preparing") (by decide)

/-- C5 at a delivered order, a thousand minutes after it was placed. -/
theorem delivered_is_terminal_witness :
    simulateOrderProgress sampleParseDate (sampleNow 1000) (sampleOrder "delivered") =
      sampleOrder "delivered" :=
  delivered_is_terminal sampleParseDate (sampleNow 1000) (sampleOrder "delivered") rfl

/-- C7 at the sample order, between nine and seventeen minutes after it was
placed. -/
theorem progress_monotone_in_time_witness :
    indexOf statusFlow
        (simulateOrderProgress sampleParseDate (sampleNow 9) (sampleOrder "confirmed")).status ≤
      indexOf statusFlow
        (simulateOrderProgress sampleParseDate (sampleNow 17) (sampleOrder "confirmed")).status :=
  (progress_monotone_in_time sampleParseDate (sampleNow 9) (sampleNow 17)
    (sampleOrder "confirmed") (by decide) (by decide)).2

/-- C8 at a store holding the sample order of user 7, refreshed by user 9 forty
minutes after it was placed. -/
theorem refresh_wrong_user_not_found_witness :
    refreshOrderData (sampleEnv 40 (some { id := .num 9 })) (.num 1001)
        (sampleWorld [sampleOtherOrder, sampleOrder "confirmed"]) =
      sampleWorld [sampleOtherOrder, sampleOrder "confirmed"] :=
  (refresh_wrong_user_not_found (sampleEnv 40 (some { id := .num 9 })) (.num 1001)
    (sampleWorld [sampleOtherOrder, sampleOrder "confirmed"]) { id := .num 9 }
    (sampleOrder "confirmed") rfl (by decide) (by decide) (by decide) (by decide)).2.2.2.2
    (by decide)

/-- C9 at a list holding another customer's order and the sample order of
user 7: user 7 finds the sample order and is shown it; user 9 finds nothing
under that id and is shown no tracking view. -/
theorem findUserOrder_owner_only_witness :
    (findUserOrder [sampleOtherOrder, sampleOrder "confirmed"] (.num 1001) (.num 7) =
        .ok (some (sampleOrder "confirmed")) ∧
      track (sampleEnv 0 (some { id := .num 7 })) (.num 1001)
          (sampleWorld [sampleOtherOrder, sampleOrder "confirmed"]) =
        { sampleWorld [sampleOtherOrder, sampleOrder "confirmed"] with
          displayed := (sampleWorld [sampleOtherOrder, sampleOrder "confirmed"]).displayed ++
            [sampleOrder "confirmed"] }) ∧
      findUserOrder [sampleOtherOrder, sampleOrder "confirmed"] (.num 1001) (.num 9) = .ok none ∧
      (track (sampleEnv 0 (some { id := .num 9 })) (.num 1001)
          (sampleWorld [sampleOtherOrder, sampleOrder "confirmed"])).displayed = [] :=
  ⟨⟨((findUserOrder_owner_only [sampleOtherOrder, sampleOrder "confirmed"] (.num 1001)
        (.num 7)).2.1 [sampleOtherOrder] (sampleOrder "confirmed") [] rfl (by decide) (by decide)
        (by decide) (by decide) (by decide)).1,
      ((findUserOrder_owner_only [sampleOtherOrder, sampleOrder "confirmed"] (.num 1001)
        (.num 7)).2.1 [sampleOtherOrder] (sampleOrder "confirmed") [] rfl (by decide) (by decide)
        (by decide) (by decide) (by decide)).2 (sampleEnv 0 (some { id := .num 7 }))
        (sampleWorld [sampleOtherOrder, sampleOrder "confirmed"]) rfl rfl rfl⟩,
    ((findUserOrder_owner_only [sampleOtherOrder, sampleOrder "confirmed"] (.num 1001)
      (.num 9)).2.2 (by decide)).2.1 (by decide) (by decide),
    ((findUserOrder_owner_only [sampleOtherOrder, sampleOrder "confirmed"] (.num 1001)
      (.num 9)).2.2 (by decide)).2.2 (sampleEnv 0 (some { id := .num 9 }))
      (sampleWorld [sampleOtherOrder, sampleOrder "confirmed"]) rfl rfl⟩

/-! ## Lemmas on the refresh operation -/

theorem simulateOrderProgress_with_status (parseDate : String → Option Int) (now : Int)
    (order : Order) :
    simulateOrderProgress parseDate now order =
      { order with status := (simulateOrderProgress parseDate now order).status } := by
  rw [simulateOrderProgress_unfold]
  by_cases hlt : indexOf statusFlow order.status < 3
  · rw [if_pos hlt]
    cases orderTime parseDate order with
    | none => rfl
    | some t =>
      simp only []
      by_cases hgt : expectedProgress ((now - t) / 60000) > indexOf statusFlow order.status
      · rw [if_pos hgt]
      · rw [if_neg hgt]
  · rw [if_neg hlt]

theorem refreshMatch_simulateOrderProgress (user : Option User) (orderId : JSVal)
    (parseDate : String → Option Int) (now : Int) (order : Order) :
    refreshMatch user orderId (simulateOrderProgress parseDate now order) =
      refreshMatch user orderId order := by
  rw [simulateOrderProgress_with_status]
  rfl

theorem findIndexM_congr (p : Order → Except JSError Bool) :
    ∀ (l l' : List Order), l.map p = l'.map p → findIndexM p l = findIndexM p l' := by
  intro l
  induction l with
  | nil =>
    intro l' h
    cases l' with
    | nil => rfl
    | cons y rest' => simp at h
  | cons x rest ih =>
    intro l' h
    cases l' with
    | nil => simp at h
    | cons y rest' =>
      simp only [List.map_cons, List.cons.injEq] at h
      unfold findIndexM
      rw [h.1, ih rest' h.2]

theorem findIndexM_set (p : Order → Except JSError Bool) (l : List Order) (i : Nat)
    (current updated : Order) (hcur : l[i]? = some current) (hp : p updated = p current) :
    findIndexM p (l.set i updated) = findIndexM p l := by
  apply findIndexM_congr
  rw [List.map_set, hp]
  apply List.ext_getElem?
  intro j
  by_cases hj : i = j
  · subst hj
    have hi : i < l.length := (List.getElem?_eq_some.1 hcur).1
    rw [List.getElem?_set_self (by simpa using hi), List.getElem?_map, hcur]
    rfl
  · rw [List.getElem?_set_ne hj]

theorem refreshOrderData_of_error (env : Env) (orderId : JSVal) (w : World) (e : JSError)
    (h : findIndexM (refreshMatch env.user orderId) w.store = .error e) :
    refreshOrderData env orderId w =
      { w with orders := w.store, notices := w.notices ++ [.refreshFailed] } := by
  unfold refreshOrderData
  simp only [h]
  rfl

theorem refreshOrderData_of_current (env : Env) (orderId : JSVal) (w : World)
    (i : Nat) (current : Order)
    (hfind : findIndexM (refreshMatch env.user orderId) w.store = .ok (some i))
    (hcur : w.store[i]? = some current)
    (hsame : (simulateOrderProgress env.parseDate env.now current).status = current.status) :
    refreshOrderData env orderId w =
      { w with orders := w.store, notices := w.notices ++ [.statusCurrent] } := by
  unfold refreshOrderData
  simp only [hfind, hcur]
  rw [if_neg (by simpa using hsame)]
  rfl

theorem refreshOrderData_of_write_failed (env : Env) (orderId : JSVal) (w : World)
    (i : Nat) (current : Order)
    (hfind : findIndexM (refreshMatch env.user orderId) w.store = .ok (some i))
    (hcur : w.store[i]? = some current)
    (hchg : (simulateOrderProgress env.parseDate env.now current).status ≠ current.status)
    (hwr : env.storageWritable = false) :
    refreshOrderData env orderId w =
      { w with
        orders := w.store.set i (simulateOrderProgress env.parseDate env.now current)
        notices := w.notices ++ [.refreshFailed] } := by
  unfold refreshOrderData
  simp only [hfind, hcur, hwr]
  rw [if_pos hchg]
  rfl

theorem advancesFoundOrder_true (env : Env) (orderId : JSVal) (w : World)
    (h : advancesFoundOrder env orderId w = true) :
    ∃ i current, findIndexM (refreshMatch env.user orderId) w.store = .ok (some i) ∧
      w.store[i]? = some current ∧
      (simulateOrderProgress env.parseDate env.now current).status ≠ current.status := by
  unfold advancesFoundOrder at h
  cases hf : findIndexM (refreshMatch env.user orderId) w.store with
  | error e => rw [hf] at h; simp at h
  | ok r =>
    cases r with
    | none => rw [hf] at h; simp at h
    | some i =>
      rw [hf] at h
      simp only [] at h
      cases hc : w.store[i]? with
      | none => rw [hc] at h; simp at h
      | some current =>
        rw [hc] at h
        exact ⟨i, current, rfl, hc, by simpa using h⟩

theorem advancesFoundOrder_false (env : Env) (orderId : JSVal) (w : World)
    (h : advancesFoundOrder env orderId w = false) :
    refreshOrderData env orderId w = { w with orders := w.store } ∨
      refreshOrderData env orderId w =
        { w with orders := w.store, notices := w.notices ++ [.refreshFailed] } ∨
      refreshOrderData env orderId w =
        { w with orders := w.store, notices := w.notices ++ [.statusCurrent] } := by
  cases hf : findIndexM (refreshMatch env.user orderId) w.store with
  | error e => exact Or.inr (Or.inl (refreshOrderData_of_error env orderId w e hf))
  | ok r =>
    cases r with
    | none => exact Or.inl (refreshOrderData_of_none env orderId w hf)
    | some i =>
      obtain ⟨current, hc, _⟩ := findIndexM_some _ _ _ hf
      refine Or.inr (Or.inr (refreshOrderData_of_current env orderId w i current hf hc ?_))
      unfold advancesFoundOrder at h
      rw [hf] at h
      simp only [hc] at h
      simpa using h


/-- One invocation of `refreshOrderData`, the listeners of its event apart,
dispatches no event or one; it dispatches only if the found order was
advanced; with a store that accepts the write, an advanced order gives one
dispatch; and when the status is current or no order is found, the invocation
writes nothing to the store and dispatches nothing. -/
theorem refreshOrderData_dispatch_iff_advanced (env : Env) (orderId : JSVal) (w : World) :
    ((refreshOrderData env orderId w).events = w.events ∨
        ∃ e, (refreshOrderData env orderId w).events = w.events ++ [e]) ∧
      ((refreshOrderData env orderId w).events ≠ w.events →
        advancesFoundOrder env orderId w = true) ∧
      (env.storageWritable = true → advancesFoundOrder env orderId w = true →
        (refreshOrderData env orderId w).events.length = w.events.length + 1) ∧
      (advancesFoundOrder env orderId w = false →
        (refreshOrderData env orderId w).store = w.store ∧
          (refreshOrderData env orderId w).events = w.events) := by
  cases hadv : advancesFoundOrder env orderId w with
  | false =>
    have hkeep : (refreshOrderData env orderId w).store = w.store ∧
        (refreshOrderData env orderId w).events = w.events := by
      rcases advancesFoundOrder_false env orderId w hadv with h | h | h <;> rw [h] <;>
        exact ⟨rfl, rfl⟩
    refine ⟨Or.inl hkeep.2, fun hne => absurd hkeep.2 hne, fun _ h => ?_, fun _ => hkeep⟩
    simp at h
  | true =>
    obtain ⟨i, current, hfind, hcur, hchg⟩ := advancesFoundOrder_true env orderId w hadv
    cases hwr : env.storageWritable with
    | true =>
      rw [refreshOrderData_of_changed env orderId w i current hfind hcur hchg hwr]
      refine ⟨Or.inr ⟨_, rfl⟩, fun _ => rfl, fun _ _ => by simp, fun h => ?_⟩
      simp at h
    | false =>
      rw [refreshOrderData_of_write_failed env orderId w i current hfind hcur hchg hwr]
      refine ⟨Or.inl rfl, fun _ => rfl, fun h => ?_, fun h => ?_⟩
      · simp at h
      · simp at h

/-- When the store write fails during a refresh that would advance an order,
the store still holds the original order with its old status and no event has
been emitted; the list `this.orders` holds the advanced order, which was
assigned before the write. -/
theorem failed_write_keeps_store (env : Env) (orderId : JSVal) (w : World) (i : Nat)
    (current : Order)
    (hfind : findIndexM (refreshMatch env.user orderId) w.store = .ok (some i))
    (hcur : w.store[i]? = some current)
    (hchg : (simulateOrderProgress env.parseDate env.now current).status ≠ current.status)
    (hwr : env.storageWritable = false) :
    (refreshOrderData env orderId w).store = w.store ∧
      (refreshOrderData env orderId w).store[i]? = some current ∧
      (refreshOrderData env orderId w).events = w.events ∧
      (refreshOrderData env orderId w).orders[i]? =
        some (simulateOrderProgress env.parseDate env.now current) := by
  have hi : i < w.store.length := (List.getElem?_eq_some.1 hcur).1
  rw [refreshOrderData_of_write_failed env orderId w i current hfind hcur hchg hwr]
  exact ⟨rfl, hcur, rfl, by simp [hi]⟩


theorem simulateOrderProgress_settled (parseDate : String → Option Int) (now : Int)
    (order : Order) :
    (simulateOrderProgress parseDate now (simulateOrderProgress parseDate now order)).status =
      (simulateOrderProgress parseDate now order).status := by
  have hlow := (indexOf_statusFlow_bounds order.status).1
  rw [simulateOrderProgress_unfold parseDate now order]
  by_cases hlt : indexOf statusFlow order.status < 3
  · rw [if_pos hlt]
    cases horder : orderTime parseDate order with
    | none =>
      simp only []
      rw [simulateOrderProgress_unfold, if_pos hlt, horder]
    | some t =>
      have he := expectedProgress_le ((now - t) / 60000)
      simp only []
      by_cases hgt : expectedProgress ((now - t) / 60000) > indexOf statusFlow order.status
      · rw [if_pos hgt, simulateOrderProgress_unfold, orderTime_with_status, horder]
        simp only []
        rw [indexOf_elemAt _ (by omega) he]
        simp
      · rw [if_neg hgt, simulateOrderProgress_unfold, if_pos hlt, horder]
        simp only []
        rw [if_neg hgt]
  · rw [if_neg hlt, simulateOrderProgress_unfold, if_neg hlt]

/-- C14: the status write is idempotent.  For every store, order id, user and
current time, a second `refreshOrderData` with the same surroundings leaves the
store as the first one left it and emits no further event; when the order is
found and the store accepts writes, the second refresh reports that the status
is current. -/
theorem refresh_twice_same_store (env : Env) (orderId : JSVal) (w : World) :
    (refreshOrderData env orderId (refreshOrderData env orderId w)).store =
        (refreshOrderData env orderId w).store ∧
      (refreshOrderData env orderId (refreshOrderData env orderId w)).events =
        (refreshOrderData env orderId w).events ∧
      (env.storageWritable = true →
        ∀ i, findIndexM (refreshMatch env.user orderId) w.store = .ok (some i) →
          (refreshOrderData env orderId (refreshOrderData env orderId w)).notices =
            (refreshOrderData env orderId w).notices ++ [.statusCurrent]) := by
  cases hf : findIndexM (refreshMatch env.user orderId) w.store with
  | error e =>
    have h1 := refreshOrderData_of_error env orderId w e hf
    have h2 := refreshOrderData_of_error env orderId (refreshOrderData env orderId w) e
      (by rw [h1]; exact hf)
    rw [h2]
    exact ⟨rfl, rfl, fun _ i hi => by simp at hi⟩
  | ok r =>
    cases r with
    | none =>
      have h1 := refreshOrderData_of_none env orderId w hf
      have h2 := refreshOrderData_of_none env orderId (refreshOrderData env orderId w)
        (by rw [h1]; exact hf)
      rw [h2]
      exact ⟨rfl, rfl, fun _ i hi => by simp at hi⟩
    | some i =>
      obtain ⟨current, hcur, _⟩ := findIndexM_some _ _ _ hf
      have hi : i < w.store.length := (List.getElem?_eq_some.1 hcur).1
      by_cases hchg :
          (simulateOrderProgress env.parseDate env.now current).status ≠ current.status
      · cases hwr : env.storageWritable with
        | true =>
          have h1 := refreshOrderData_of_changed env orderId w i current hf hcur hchg hwr
          have h2 := refreshOrderData_of_current env orderId (refreshOrderData env orderId w) i
            (simulateOrderProgress env.parseDate env.now current)
            (by
              rw [h1]
              show findIndexM (refreshMatch env.user orderId)
                (w.store.set i (simulateOrderProgress env.parseDate env.now current)) = _
              rw [findIndexM_set _ _ _ current _ hcur
                (refreshMatch_simulateOrderProgress _ _ _ _ _), hf])
            (by
              rw [h1]
              show (w.store.set i (simulateOrderProgress env.parseDate env.now current))[i]? = _
              simp [hi])
            (simulateOrderProgress_settled _ _ _)
          rw [h2]
          exact ⟨rfl, rfl, fun _ j hj => rfl⟩
        | false =>
          have h1 := refreshOrderData_of_write_failed env orderId w i current hf hcur hchg hwr
          have h2 := refreshOrderData_of_write_failed env orderId
            (refreshOrderData env orderId w) i current
            (by rw [h1]; exact hf) (by rw [h1]; exact hcur) hchg hwr
          rw [h2]
          exact ⟨rfl, rfl, fun h => by simp at h⟩
      · have hsame : (simulateOrderProgress env.parseDate env.now current).status =
            current.status := by
          simpa using hchg
        have h1 := refreshOrderData_of_current env orderId w i current hf hcur hsame
        have h2 := refreshOrderData_of_current env orderId (refreshOrderData env orderId w) i
          current (by rw [h1]; exact hf) (by rw [h1]; exact hcur) hsame
        rw [h2]
        exact ⟨rfl, rfl, fun _ j hj => rfl⟩


/-- C15: `simulateOrderProgress` changes nothing but the status.  For every order
and every current time the returned order has the id, userId, createdAt, date,
items, total, deliveryAddress and specialInstructions of the input (which, as
a value, is never modified). -/
theorem simulateOrderProgress_frame (parseDate : String → Option Int) (now : Int)
    (order : Order) :
    (simulateOrderProgress parseDate now order).id = order.id ∧
      (simulateOrderProgress parseDate now order).userId = order.userId ∧
      (simulateOrderProgress parseDate now order).createdAt = order.createdAt ∧
      (simulateOrderProgress parseDate now order).date = order.date ∧
      (simulateOrderProgress parseDate now order).items = order.items ∧
      (simulateOrderProgress parseDate now order).total = order.total ∧
      (simulateOrderProgress parseDate now order).deliveryAddress = order.deliveryAddress ∧
      (simulateOrderProgress parseDate now order).specialInstructions =
        order.specialInstructions := by
  have h := simulateOrderProgress_with_status parseDate now order
  refine ⟨?_, ?_, ?_, ?_, ?_, ?_, ?_, ?_⟩ <;> rw [h]

theorem simulateOrderProgress_of_target (parseDate : String → Option Int) (now : Int)
    (order : Order) (t : Int) (htime : orderTime parseDate order = some t)
    (hlt : indexOf statusFlow order.status < 3) :
    simulateOrderProgress parseDate now order =
      if expectedProgress ((now - t) / 60000) > indexOf statusFlow order.status then
        { order with status := elemAt statusFlow (expectedProgress ((now - t) / 60000)) }
      else order := by
  rw [simulateOrderProgress_unfold, if_pos hlt, htime]

theorem expectedProgress_of_range (m k : Int) (hk : k ≤ 2) (hlo : 8 * k ≤ m)
    (hhi : m < 8 * (k + 1)) : expectedProgress m = k := by
  rw [expectedProgress_eq]
  omega

theorem expectedProgress_capped (m : Int) (h : 24 ≤ m) : expectedProgress m = 3 := by
  rw [expectedProgress_eq]
  omega

/-- C17: for a stored order with status confirmed created at `t0`, a refresh by
its owner at any time with at least 24 elapsed minutes has target index 3,
however much time has elapsed, and writes the order with status delivered,
emitting the event for it (changed is true). -/
theorem scenario_confirmed_to_delivered (env : Env) (orderId : JSVal) (w : World) (i : Nat)
    (order : Order) (t0 : Int)
    (hfind : findIndexM (refreshMatch env.user orderId) w.store = .ok (some i))
    (hcur : w.store[i]? = some order)
    (hstatus : order.status = .str "confirmed")
    (htime : orderTime env.parseDate order = some t0)
    (hwr : env.storageWritable = true)
    (h24 : 24 ≤ (env.now - t0) / 60000) :
    expectedProgress ((env.now - t0) / 60000) = 3 ∧
      simulateOrderProgress env.parseDate env.now order =
        { order with status := .str "delivered" } ∧
      (refreshOrderData env orderId w).store =
        w.store.set i { order with status := .str "delivered" } ∧
      (refreshOrderData env orderId w).events =
        w.events ++ [{ orderId := orderId, status := .str "delivered" }] := by
  have he := expectedProgress_capped _ h24
  have hsim : simulateOrderProgress env.parseDate env.now order =
      { order with status := .str "delivered" } := by
    rw [simulateOrderProgress_of_target _ _ _ t0 htime (by rw [hstatus]; decide), he, hstatus]
    rfl
  have hchg : (simulateOrderProgress env.parseDate env.now order).status ≠ order.status := by
    rw [hsim, hstatus]
    simp
  rw [refreshOrderData_of_changed env orderId w i order hfind hcur hchg hwr, hsim]
  exact ⟨he, rfl, rfl, rfl⟩

/-! ## Lemmas on the view calculators -/

theorem calculateProgressPercentage_known :
    calculateProgressPercentage (.str "confirmed") = .value 25 ∧
      calculateProgressPercentage (.str "preparing") = .value 50 ∧
      calculateProgressPercentage (.str "out_for_delivery") = .value 75 ∧
      calculateProgressPercentage (.str "delivered") = .value 100 ∧
      calculateProgressPercentage (.str "cancelled") = .value 100 := by
  decide

theorem calculateProgressPercentage_unknown (status : JSVal)
    (hown : progressMap.lookup (propertyKey status) = none)
    (hproto : propertyKey status ∉ objectPrototypeKeys) :
    calculateProgressPercentage status = .value 0 := by
  unfold calculateProgressPercentage lookupProp
  rw [hown, if_neg hproto]

theorem calculateProgressPercentage_inherited (status : JSVal)
    (hproto : propertyKey status ∈ objectPrototypeKeys) :
    calculateProgressPercentage status = .prototypeMember (propertyKey status) := by
  have hown : progressMap.lookup (propertyKey status) = none := by
    revert hproto
    generalize propertyKey status = k
    intro hk
    simp only [objectPrototypeKeys, List.mem_cons, List.mem_singleton, List.not_mem_nil,
      or_false] at hk
    rcases hk with h | h | h | h | h | h | h | h | h | h | h | h <;> subst h <;> decide
  unfold calculateProgressPercentage lookupProp
  rw [hown, if_pos hproto]

theorem calculateEstimatedTime_of_time (parseDate : String → Option Int) (now : Int)
    (status orderDate : JSVal) (t : Int) (htime : toDate parseDate orderDate = some t) :
    calculateEstimatedTime parseDate now status orderDate =
      estimatedTimeRemaining status t now := by
  unfold calculateEstimatedTime estimatedTimeRemaining
  rw [htime]
  simp only [Option.map_some', numberText, minutesLabel]
  norm_num

/-- C20: `calculateEstimatedTime` never shows a negative number.  For every
status among confirmed, preparing and out_for_delivery, every valid creation
time and every current time (so every integer value of the elapsed minutes,
negative ones included), the label is the one for a number of minutes that is
at least 0. -/
theorem calculateEstimatedTime_nonnegative (parseDate : String → Option Int) (now : Int)
    (status orderDate : JSVal)
    (t : Int) (htime : toDate parseDate orderDate = some t)
    (hs : status = .str "confirmed" ∨ status = .str "preparing" ∨
      status = .str "out_for_delivery") :
    ∃ n : Int, 0 ≤ n ∧
      calculateEstimatedTime parseDate now status orderDate = some (minutesLabel n) := by
  rw [calculateEstimatedTime_of_time _ _ _ _ t htime]
  unfold estimatedTimeRemaining
  rcases hs with h | h | h
  · refine ⟨max 5 (45 - min ((now - t) / 60000) 15),
      le_trans (by decide) (le_max_left _ _), ?_⟩
    rw [h]
    simp
  · refine ⟨max 5 (30 - min ((now - t) / 60000 - 15) 15),
      le_trans (by decide) (le_max_left _ _), ?_⟩
    rw [h]
    simp
  · refine ⟨max 2 (15 - min ((now - t) / 60000 - 30) 15),
      le_trans (by decide) (le_max_left _ _), ?_⟩
    rw [h]
    simp


/-- C19: for every status, valid creation time and current time, with
`elapsed = floor((now - createdAt) / 60000)`, `calculateEstimatedTime` returns
the label for `max(5, 45 - min(elapsed, 15))` minutes when confirmed,
`max(5, 30 - min(elapsed - 15, 15))` when preparing,
`max(2, 15 - min(elapsed - 30, 15))` when out_for_delivery, the label
'Delivered' when delivered, 'Order Cancelled' when cancelled, and `null` for
every other status. -/
theorem calculateEstimatedTime_spec (parseDate : String → Option Int) (now : Int)
    (status orderDate : JSVal) (t : Int) (htime : toDate parseDate orderDate = some t) :
    (status = .str "confirmed" →
        calculateEstimatedTime parseDate now status orderDate =
          some (minutesLabel (max 5 (45 - min ((now - t) / 60000) 15)))) ∧
      (status = .str "preparing" →
        calculateEstimatedTime parseDate now status orderDate =
          some (minutesLabel (max 5 (30 - min ((now - t) / 60000 - 15) 15)))) ∧
      (status = .str "out_for_delivery" →
        calculateEstimatedTime parseDate now status orderDate =
          some (minutesLabel (max 2 (15 - min ((now - t) / 60000 - 30) 15)))) ∧
      (status = .str "delivered" →
        calculateEstimatedTime parseDate now status orderDate = some "Delivered") ∧
      (status = .str "cancelled" →
        calculateEstimatedTime parseDate now status orderDate = some "Order Cancelled") ∧
      (status ≠ .str "confirmed" → status ≠ .str "preparing" →
        status ≠ .str "out_for_delivery" → status ≠ .str "delivered" →
        status ≠ .str "cancelled" →
        calculateEstimatedTime parseDate now status orderDate = none) := by
  rw [calculateEstimatedTime_of_time _ _ _ _ t htime]
  unfold estimatedTimeRemaining
  refine ⟨?_, ?_, ?_, ?_, ?_, ?_⟩
  · intro h; rw [h]; simp
  · intro h; rw [h]; simp
  · intro h; rw [h]; simp
  · intro h; rw [h]; simp
  · intro h; rw [h]; simp
  · intro h1 h2 h3 h4 h5
    simp [h1, h2, h3, h4, h5]

/-! ## Evaluations at the sample data, continued -/

/-- C13: a failed store write leaves `this.orders` ahead of the store.  With a
store that rejects the write, eight minutes after the confirmed sample order
was placed, the refresh by its owner ends with the 'Failed to refresh order
status' notice, the store keeps the confirmed order and no event is emitted,
but `this.orders` holds the order with status preparing, and a `track` call
that follows shows the order as being prepared. -/
theorem failed_write_changes_engine_list :
    (refreshOrderData (sampleFullEnv 8 (some { id := .num 7 })) (.num 1001)
          (sampleWorld [sampleOrder "confirmed"])).orders = [sampleOrder "preparing"] ∧
      (refreshOrderData (sampleFullEnv 8 (some { id := .num 7 })) (.num 1001)
          (sampleWorld [sampleOrder "confirmed"])).orders ≠ [sampleOrder "confirmed"] ∧
      (refreshOrderData (sampleFullEnv 8 (some { id := .num 7 })) (.num 1001)
          (sampleWorld [sampleOrder "confirmed"])).store = [sampleOrder "confirmed"] ∧
      (refreshOrderData (sampleFullEnv 8 (some { id := .num 7 })) (.num 1001)
          (sampleWorld [sampleOrder "confirmed"])).events = [] ∧
      (refreshOrderData (sampleFullEnv 8 (some { id := .num 7 })) (.num 1001)
          (sampleWorld [sampleOrder "confirmed"])).notices = [.refreshFailed] ∧
      (track (sampleFullEnv 8 (some { id := .num 7 })) (.num 1001)
          (refreshOrderData (sampleFullEnv 8 (some { id := .num 7 })) (.num 1001)
            (sampleWorld [sampleOrder "confirmed"]))).displayed = [sampleOrder "preparing"] := by
  decide

/-- C14 at the sample order, refreshed twice eight minutes after it was placed. -/
theorem refresh_twice_same_store_witness :
    (refreshOrderData (sampleEnv 8 (some { id := .num 7 })) (.num 1001)
        (refreshOrderData (sampleEnv 8 (some { id := .num 7 })) (.num 1001)
          (sampleWorld [sampleOtherOrder, sampleOrder "confirmed"]))).notices =
      (refreshOrderData (sampleEnv 8 (some { id := .num 7 })) (.num 1001)
        (sampleWorld [sampleOtherOrder, sampleOrder "confirmed"])).notices ++
        [.statusCurrent] :=
  (refresh_twice_same_store (sampleEnv 8 (some { id := .num 7 })) (.num 1001)
    (sampleWorld [sampleOtherOrder, sampleOrder "confirmed"])).2.2 rfl 1 (by decide)

/-- C17 at the sample order, refreshed forty minutes after it was placed. -/
theorem scenario_confirmed_to_delivered_witness :
    (refreshOrderData (sampleEnv 40 (some { id := .num 7 })) (.num 1001)
        (sampleWorld [sampleOrder "confirmed"])).store =
      (sampleWorld [sampleOrder "confirmed"]).store.set 0
        { sampleOrder "confirmed" with status := .str "delivered" } :=
  (scenario_confirmed_to_delivered (sampleEnv 40 (some { id := .num 7 })) (.num 1001)
    (sampleWorld [sampleOrder "confirmed"]) 0 (sampleOrder "confirmed") 1704067200000
    (by decide) (by decide) rfl (by decide) rfl (by decide)).2.2.1

/-- C18: the default of `calculateProgressPercentage` misses inherited keys.  For
the status "constructor" (and "toString", "__proto__") the read
`progressMap[status]` finds a member of `Object.prototype`, which is truthy, so
the method returns that member and not 0. -/
theorem progress_of_inherited_key_not_zero :
    calculateProgressPercentage (.str "constructor") = .prototypeMember "constructor" ∧
      calculateProgressPercentage (.str "constructor") ≠ .value 0 ∧
      calculateProgressPercentage (.str "toString") ≠ .value 0 ∧
      calculateProgressPercentage (.str "__proto__") ≠ .value 0 := by
  decide

/-- C19 at an order being prepared, nine minutes after it was placed. -/
theorem calculateEstimatedTime_spec_witness :
    calculateEstimatedTime sampleParseDate (sampleNow 9) (.str "preparing")
        (.str "2024-01-01T00:00:00.000Z") =
      some (minutesLabel (max 5 (30 - min ((sampleNow 9 - 1704067200000) / 60000 - 15) 15))) :=
  (calculateEstimatedTime_spec sampleParseDate (sampleNow 9) (.str "preparing")
    (.str "2024-01-01T00:00:00.000Z") 1704067200000 (by decide)).2.1 rfl

/-- C20 at a confirmed order read a hundred minutes before its creation time. -/
theorem calculateEstimatedTime_nonnegative_witness :
    ∃ n : Int, 0 ≤ n ∧
      calculateEstimatedTime sampleParseDate (sampleNow (-100)) (.str "confirmed")
        (.str "2024-01-01T00:00:00.000Z") = some (minutesLabel n) :=
  calculateEstimatedTime_nonnegative sampleParseDate (sampleNow (-100)) (.str "confirmed")
    (.str "2024-01-01T00:00:00.000Z") 1704067200000 (by decide) (by decide)


/-! ## Lemmas on labels and badge classes -/

theorem lookup_of_not_known (table : List (String × String)) (key : String)
    (hkeys : table.map Prod.fst = knownStatuses) (hkey : key ∉ knownStatuses) :
    table.lookup key = none := by
  rw [List.lookup_eq_none_iff]
  intro p hp
  have hne : key ≠ p.1 := by
    intro hk
    apply hkey
    rw [← hkeys, hk]
    exact List.mem_map_of_mem _ hp
  simpa using hne

theorem getStatusBadgeClass_known :
    getStatusBadgeClass (.str "confirmed") = .value "bg-primary" ∧
      getStatusBadgeClass (.str "preparing") = .value "bg-warning text-dark" ∧
      getStatusBadgeClass (.str "out_for_delivery") = .value "bg-info" ∧
      getStatusBadgeClass (.str "delivered") = .value "bg-success" ∧
      getStatusBadgeClass (.str "cancelled") = .value "bg-danger" := by
  decide

theorem getStatusBadgeClass_unknown (status : JSVal)
    (hkey : propertyKey status ∉ knownStatuses)
    (hproto : propertyKey status ∉ objectPrototypeKeys) :
    getStatusBadgeClass status = .value "bg-secondary" := by
  unfold getStatusBadgeClass lookupProp
  rw [lookup_of_not_known classes _ rfl hkey, if_neg hproto]

theorem getStatusBadgeClass_copies (status : JSVal) :
    OrderHistory.getStatusBadgeClass status = getStatusBadgeClass status := rfl

theorem formatStatus_copies (status : JSVal) :
    OrderHistory.formatStatus status = formatStatus status := rfl

/-- C22, as amended: `formatStatus` is total; it maps confirmed to 'Confirmed',
preparing to 'Preparing', out_for_delivery to 'Out for Delivery', delivered to
'Delivered', cancelled to 'Cancelled', and every other status whose key is not
a member inherited from `Object.prototype` to that status itself, so the label
of an unrecognized status is the input.  Both copies agree. -/
theorem formatStatus_falls_back_to_input (status : JSVal) :
    formatStatus (.str "confirmed") = .value (.str "Confirmed") ∧
      formatStatus (.str "preparing") = .value (.str "Preparing") ∧
      formatStatus (.str "out_for_delivery") = .value (.str "Out for Delivery") ∧
      formatStatus (.str "delivered") = .value (.str "Delivered") ∧
      formatStatus (.str "cancelled") = .value (.str "Cancelled") ∧
      (propertyKey status ∉ knownStatuses → propertyKey status ∉ objectPrototypeKeys →
        formatStatus status = .value status) ∧
      OrderHistory.formatStatus status = formatStatus status := by
  refine ⟨by decide, by decide, by decide, by decide, by decide, ?_, rfl⟩
  intro hkey hproto
  unfold formatStatus lookupProp
  rw [lookup_of_not_known statusMap _ rfl hkey, if_neg hproto]

/-! ## Evaluations of labels and badge classes -/

/-- C21: the default class of `getStatusBadgeClass` misses inherited keys.  For the
status "constructor" (and "toString") the read `classes[status]` finds a member
of `Object.prototype`, which is truthy, so both copies return that member and
not 'bg-secondary'. -/
theorem badge_class_of_inherited_key_not_default :
    getStatusBadgeClass (.str "constructor") = .prototypeMember "constructor" ∧
      getStatusBadgeClass (.str "constructor") ≠ .value "bg-secondary" ∧
      getStatusBadgeClass (.str "toString") ≠ .value "bg-secondary" ∧
      OrderHistory.getStatusBadgeClass (.str "constructor") ≠ .value "bg-secondary" := by
  decide

/-- C22 fails as stated: two unrecognized statuses get two different labels, each
the status itself. -/
theorem formatStatus_label_depends_on_input :
    formatStatus (.str "pending") = .value (.str "pending") ∧
      formatStatus (.str "on_hold") = .value (.str "on_hold") ∧
      formatStatus (.str "pending") ≠ formatStatus (.str "on_hold") := by
  decide

/-- C22 as amended, at the unrecognized status "pending". -/
theorem formatStatus_falls_back_to_input_witness :
    formatStatus (.str "pending") = .value (.str "pending") :=
  (formatStatus_falls_back_to_input (.str "pending")).2.2.2.2.2.1 (by decide) (by decide)

/-! ## The auto-refresh timer: invariant -/

theorem timerInv_initial : TimerInv initialTimers := by
  unfold TimerInv initialTimers
  exact ⟨le_refl _, rfl⟩

theorem stopAutoRefresh_clears (s : TimerState) (h : TimerInv s) :
    (stopAutoRefresh s).active = [] ∧ (stopAutoRefresh s).refreshInterval = none ∧
      (stopAutoRefresh s).nextHandle = s.nextHandle := by
  unfold TimerInv at h
  unfold stopAutoRefresh
  cases hr : s.refreshInterval with
  | none =>
    rw [hr] at h
    exact ⟨h.2, hr, rfl⟩
  | some handle =>
    rw [hr] at h
    obtain ⟨_, h1, _, orderId, hact⟩ := h
    have hne : handle ≠ 0 := by omega
    simp only [hne, ne_eq, not_false_eq_true, if_true]
    rw [hact]
    simp

theorem timerInv_stop (s : TimerState) (h : TimerInv s) : TimerInv (stopAutoRefresh s) := by
  obtain ⟨h1, h2, h3⟩ := stopAutoRefresh_clears s h
  unfold TimerInv
  rw [h2, h3]
  exact ⟨h.1, h1⟩

theorem startAutoRefresh_of_active (orderId status : JSVal) (s : TimerState)
    (h : TimerInv s) (hd : status ≠ .str "delivered") (hc : status ≠ .str "cancelled") :
    startAutoRefresh orderId status s =
      { refreshInterval := some s.nextHandle
        active := [{ handle := s.nextHandle, orderId := orderId, delay := 30000 }]
        nextHandle := s.nextHandle + 1 } := by
  obtain ⟨h1, _, h3⟩ := stopAutoRefresh_clears s h
  unfold startAutoRefresh
  rw [if_pos ⟨hd, hc⟩]
  simp only [h1, h3, List.nil_append]

theorem startAutoRefresh_of_terminal (orderId status : JSVal) (s : TimerState)
    (h : status = .str "delivered" ∨ status = .str "cancelled") :
    startAutoRefresh orderId status s = s := by
  unfold startAutoRefresh
  rw [if_neg]
  rcases h with h | h <;> simp [h]

theorem timerInv_start (orderId status : JSVal) (s : TimerState) (h : TimerInv s) :
    TimerInv (startAutoRefresh orderId status s) := by
  by_cases hd : status = .str "delivered"
  · rw [startAutoRefresh_of_terminal _ _ _ (Or.inl hd)]
    exact h
  · by_cases hc : status = .str "cancelled"
    · rw [startAutoRefresh_of_terminal _ _ _ (Or.inr hc)]
      exact h
    · rw [startAutoRefresh_of_active _ _ _ h hd hc]
      unfold TimerInv
      have := h.1
      exact ⟨by simp, this, by simp, orderId, rfl⟩

theorem timerInv_run (c : TimerCall) (s : TimerState) (h : TimerInv s) : TimerInv (c.run s) := by
  cases c with
  | start orderId status => exact timerInv_start orderId status s h
  | stop => exact timerInv_stop s h

theorem timerInv_runTimerCalls (calls : List TimerCall) :
    ∀ s, TimerInv s → TimerInv (runTimerCalls calls s) := by
  induction calls with
  | nil => intro s h; exact h
  | cons c rest ih =>
    intro s h
    exact ih (c.run s) (timerInv_run c s h)

theorem timerInv_active_le_one (s : TimerState) (h : TimerInv s) : s.active.length ≤ 1 := by
  unfold TimerInv at h
  cases hr : s.refreshInterval with
  | none =>
    rw [hr] at h
    rw [h.2]
    simp
  | some handle =>
    rw [hr] at h
    obtain ⟨_, _, _, orderId, hact⟩ := h
    rw [hact]
    simp

/-- C23: the auto-refresh timer.  `startAutoRefresh` starts no timer when the
status is delivered or cancelled; for any other status, after any sequence of
calls, it leaves exactly one running timer, of 30000 ms, the one
`refreshInterval` refers to; `stopAutoRefresh` leaves no running timer and
`refreshInterval` `null`.  Hence after any sequence of calls at most one
refresh timer is running. -/
theorem auto_refresh_single_timer (calls : List TimerCall) (orderId status : JSVal) :
    ((status = .str "delivered" ∨ status = .str "cancelled") →
        startAutoRefresh orderId status (runTimerCalls calls initialTimers) =
          runTimerCalls calls initialTimers) ∧
      (status ≠ .str "delivered" → status ≠ .str "cancelled" →
        ∃ handle,
          (startAutoRefresh orderId status (runTimerCalls calls initialTimers)).active =
              [{ handle := handle, orderId := orderId, delay := 30000 }] ∧
            (startAutoRefresh orderId status
              (runTimerCalls calls initialTimers)).refreshInterval = some handle) ∧
      (stopAutoRefresh (runTimerCalls calls initialTimers)).active = [] ∧
      (stopAutoRefresh (runTimerCalls calls initialTimers)).refreshInterval = none ∧
      (runTimerCalls calls initialTimers).active.length ≤ 1 := by
  have hinv := timerInv_runTimerCalls calls initialTimers timerInv_initial
  refine ⟨startAutoRefresh_of_terminal _ _ _, ?_, (stopAutoRefresh_clears _ hinv).1,
    (stopAutoRefresh_clears _ hinv).2.1, timerInv_active_le_one _ hinv⟩
  intro hd hc
  rw [startAutoRefresh_of_active _ _ _ hinv hd hc]
  exact ⟨_, rfl, rfl⟩

/-- C23 at a sequence of calls: two modals opened in a row, a refresh that found
the order delivered, and one more modal. -/
theorem auto_refresh_single_timer_witness :
    ∃ handle,
      (startAutoRefresh (.num 1001) (.str "preparing")
          (runTimerCalls [.start (.num 1001) (.str "confirmed"),
            .start (.num 1000) (.str "preparing"), .start (.num 1000) (.str "delivered")]
            initialTimers)).active =
          [{ handle := handle, orderId := .num 1001, delay := 30000 }] ∧
        (startAutoRefresh (.num 1001) (.str "preparing")
          (runTimerCalls [.start (.num 1001) (.str "confirmed"),
            .start (.num 1000) (.str "preparing"), .start (.num 1000) (.str "delivered")]
            initialTimers)).refreshInterval = some handle :=
  (auto_refresh_single_timer [.start (.num 1001) (.str "confirmed"),
    .start (.num 1000) (.str "preparing"), .start (.num 1000) (.str "delivered")]
    (.num 1001) (.str "preparing")).2.1 (by decide) (by decide)

/-! ## Order history: lemmas -/

theorem sorted_orderedInsert_on (r : Order → Order → Prop) [DecidableRel r] (P : Order → Prop)
    (htot : ∀ a b, P a → P b → r a b ∨ r b a)
    (htrans : ∀ a b c, P a → P b → P c → r a b → r b c → r a c) (a : Order) (ha : P a) :
    ∀ l : List Order, (∀ x ∈ l, P x) → l.Sorted r → (l.orderedInsert r a).Sorted r := by
  intro l
  induction l with
  | nil => intro _ _; simp
  | cons b rest ih =>
    intro hP hs
    have hb : P b := hP b (by simp)
    have hrest : ∀ x ∈ rest, P x := fun x hx => hP x (by simp [hx])
    rw [List.sorted_cons] at hs
    by_cases hab : r a b
    · simp only [List.orderedInsert, hab, if_true]
      rw [List.sorted_cons]
      refine ⟨?_, List.sorted_cons.2 hs⟩
      intro x hx
      rcases List.mem_cons.1 hx with rfl | hx
      · exact hab
      · exact htrans a b x ha hb (hrest x hx) hab (hs.1 x hx)
    · have hba : r b a := (htot a b ha hb).resolve_left hab
      simp only [List.orderedInsert, hab, if_false]
      rw [List.sorted_cons]
      refine ⟨?_, ih hrest hs.2⟩
      intro x hx
      rcases (List.mem_orderedInsert r).1 hx with rfl | hx
      · exact hba
      · exact hs.1 x hx

theorem sorted_insertionSort_on (r : Order → Order → Prop) [DecidableRel r] (P : Order → Prop)
    (htot : ∀ a b, P a → P b → r a b ∨ r b a)
    (htrans : ∀ a b c, P a → P b → P c → r a b → r b c → r a c) :
    ∀ l : List Order, (∀ x ∈ l, P x) → (l.insertionSort r).Sorted r := by
  intro l
  induction l with
  | nil => intro _; simp
  | cons a rest ih =>
    intro hP
    have hrest : ∀ x ∈ rest, P x := fun x hx => hP x (by simp [hx])
    rw [List.insertionSort]
    apply sorted_orderedInsert_on r P htot htrans a (hP a (by simp))
    · intro x hx
      exact hrest x ((List.mem_insertionSort r).1 hx)
    · exact ih hrest

theorem dateCompare_of_valid (parseDate : String → Option Int) (a b : Order) (ta tb : Int)
    (ha : toDate parseDate a.date = some ta) (hb : toDate parseDate b.date = some tb) :
    dateCompare parseDate a b = tb - ta := by
  unfold dateCompare
  rw [ha, hb]

theorem sortWith_dateCompare_sorted (parseDate : String → Option Int) (l : List Order)
    (hvalid : ∀ o ∈ l, (toDate parseDate o.date).isSome = true) :
    (sortWith (dateCompare parseDate) l).Sorted (atLeastAsRecent parseDate) := by
  have hget : ∀ o : Order, (toDate parseDate o.date).isSome = true →
      ∃ t, toDate parseDate o.date = some t := fun o h => Option.isSome_iff_exists.1 h
  have hs := sorted_insertionSort_on (fun a b => dateCompare parseDate a b ≤ 0)
    (fun o => (toDate parseDate o.date).isSome = true)
    (by
      intro a b ha hb
      obtain ⟨ta, hta⟩ := hget a ha
      obtain ⟨tb, htb⟩ := hget b hb
      beta_reduce
      rw [dateCompare_of_valid _ a b ta tb hta htb, dateCompare_of_valid _ b a tb ta htb hta]
      omega)
    (by
      intro a b c ha hb hc
      obtain ⟨ta, hta⟩ := hget a ha
      obtain ⟨tb, htb⟩ := hget b hb
      obtain ⟨tc, htc⟩ := hget c hc
      beta_reduce
      rw [dateCompare_of_valid _ a b ta tb hta htb, dateCompare_of_valid _ b c tb tc htb htc,
        dateCompare_of_valid _ a c ta tc hta htc]
      omega)
    l hvalid
  unfold sortWith
  refine List.Pairwise.imp_of_mem ?_ hs
  intro a b ha hb hab
  obtain ⟨ta, hta⟩ := hget a (hvalid a ((List.mem_insertionSort _).1 ha))
  obtain ⟨tb, htb⟩ := hget b (hvalid b ((List.mem_insertionSort _).1 hb))
  rw [dateCompare_of_valid _ a b ta tb hta htb] at hab
  exact ⟨ta, tb, hta, htb, by omega⟩

theorem loadHistory_state (parseDate : String → Option Int) (user : Option User)
    (s : HistoryState) :
    (OrderHistory.loadHistory parseDate user s).2.orders = s.orders ∧
      (OrderHistory.loadHistory parseDate user s).2.store = s.store := by
  cases user <;> exact ⟨rfl, rfl⟩

theorem loadHistory_perm (parseDate : String → Option Int) (u : User) (s : HistoryState) :
    (OrderHistory.loadHistory parseDate (some u) s).1.Perm
      (s.orders.filter fun order => decide (order.userId = u.id)) := by
  unfold OrderHistory.loadHistory sortWith
  exact List.perm_insertionSort _ _

/-- C24: for a logged-in user `loadHistory` returns exactly the orders of
`this.orders` whose `userId` equals the user's id, each as often as it is
stored, arranged with the most recent date first when those orders have valid
dates, and leaves `this.orders` and the store unchanged; with no user logged
in it returns the empty list. -/
theorem loadHistory_own_orders_recent_first (parseDate : String → Option Int)
    (user : Option User) (s : HistoryState) :
    (user = none → (OrderHistory.loadHistory parseDate user s).1 = []) ∧
      (∀ u, user = some u →
        (OrderHistory.loadHistory parseDate user s).1.Perm
            (s.orders.filter fun order => decide (order.userId = u.id)) ∧
          (∀ o, o ∈ (OrderHistory.loadHistory parseDate user s).1 ↔
            o ∈ s.orders ∧ o.userId = u.id) ∧
          ((∀ o ∈ s.orders, o.userId = u.id → (toDate parseDate o.date).isSome = true) →
            (OrderHistory.loadHistory parseDate user s).1.Sorted
              (atLeastAsRecent parseDate))) ∧
      (OrderHistory.loadHistory parseDate user s).2.orders = s.orders ∧
      (OrderHistory.loadHistory parseDate user s).2.store = s.store := by
  refine ⟨?_, ?_, (loadHistory_state _ _ _).1, (loadHistory_state _ _ _).2⟩
  · intro h
    rw [h]
    rfl
  · intro u h
    rw [h]
    have hperm := loadHistory_perm parseDate u s
    refine ⟨hperm, ?_, ?_⟩
    · intro o
      rw [hperm.mem_iff]
      simp
    · intro hvalid
      unfold OrderHistory.loadHistory
      apply sortWith_dateCompare_sorted
      intro o ho
      rw [List.mem_filter] at ho
      exact hvalid o ho.1 (by simpa using ho.2)

/-- C25: `clearHistory` removes only the current user's orders.  After a
confirmed call by a logged-in user `u`, with a store that accepts the write,
the stored list is the previously stored orders whose `userId` differs from
`u.id`, in their original order and unaltered; when the confirmation is
declined or no user is logged in, the stored orders are unchanged. -/
theorem clearHistory_removes_only_own (confirmed : Bool) (user : Option User)
    (storageWritable : Bool) (s : HistoryState) :
    (confirmed = false → OrderHistory.clearHistory confirmed user storageWritable s = .ok s) ∧
      (user = none →
        ∃ s1, OrderHistory.clearHistory confirmed user storageWritable s = .ok s1 ∧
          s1.store = s.store ∧ s1.orders = s.orders) ∧
      (∀ u, confirmed = true → user = some u → storageWritable = true →
        ∃ s1, OrderHistory.clearHistory confirmed user storageWritable s = .ok s1 ∧
          s1.store = s.store.filter (fun order => decide (order.userId ≠ u.id)) ∧
          s1.store.Sublist s.store ∧
          (∀ o, o ∈ s1.store ↔ o ∈ s.store ∧ o.userId ≠ u.id) ∧
          s1.orders = s1.store) := by
  refine ⟨?_, ?_, ?_⟩
  · intro h
    rw [h]
    rfl
  · intro h
    rw [h]
    cases confirmed with
    | false => exact ⟨s, rfl, rfl, rfl⟩
    | true => exact ⟨_, rfl, rfl, rfl⟩
  · intro u hc hu hw
    rw [hc, hu, hw]
    refine ⟨_, rfl, rfl, List.filter_sublist _, ?_, rfl⟩
    intro o
    simp [List.mem_filter]

theorem foldl_add_numbers (l : List Order) (hnum : ∀ o ∈ l, ∃ n, o.total = .num n) :
    ∀ acc : Int, l.foldl (fun sum order => Total.add sum order.total) (.number (some acc)) =
      .number (some (acc + (l.map fun o => totalValue o.total).sum)) := by
  induction l with
  | nil => intro acc; simp
  | cons o rest ih =>
    intro acc
    obtain ⟨n, hn⟩ := hnum o (by simp)
    have hstep : Total.add (.number (some acc)) o.total = .number (some (acc + n)) := by
      rw [hn]
      rfl
    rw [List.foldl_cons, hstep, ih (fun x hx => hnum x (by simp [hx]))]
    simp [hn, totalValue, add_assoc]

/-- C30: `getOrderStats` partitions the current user's orders.  For every stored
list, `deliveredOrders + pendingOrders = totalOrders`, which is the number of
orders `loadHistory` returns; `totalSpent` is the sum of their `total` fields
when these are numbers; and `pendingOrders` counts every order whose status is
not delivered, a cancelled one included. -/
theorem getOrderStats_partition (parseDate : String → Option Int) (user : Option User)
    (s : HistoryState) :
    (OrderHistory.getOrderStats parseDate user s).1.deliveredOrders +
        (OrderHistory.getOrderStats parseDate user s).1.pendingOrders =
        (OrderHistory.getOrderStats parseDate user s).1.totalOrders ∧
      (OrderHistory.getOrderStats parseDate user s).1.totalOrders =
        (OrderHistory.loadHistory parseDate user s).1.length ∧
      ((∀ o ∈ (OrderHistory.loadHistory parseDate user s).1, ∃ n, o.total = .num n) →
        (OrderHistory.getOrderStats parseDate user s).1.totalSpent =
          .number (some (((OrderHistory.loadHistory parseDate user s).1.map
            fun o => totalValue o.total).sum))) ∧
      (OrderHistory.getOrderStats parseDate user s).1.pendingOrders =
        (OrderHistory.loadHistory parseDate user s).1.countP
          (fun o => decide (o.status ≠ .str "delivered")) ∧
      (OrderHistory.loadHistory parseDate user s).1.countP
          (fun o => decide (o.status = .str "cancelled")) ≤
        (OrderHistory.getOrderStats parseDate user s).1.pendingOrders := by
  refine ⟨?_, rfl, ?_, ?_, ?_⟩
  · show (List.filter _ _).length + (List.filter _ _).length = List.length _
    rw [← List.countP_eq_length_filter, ← List.countP_eq_length_filter]
    rw [List.length_eq_countP_add_countP
      (fun order : Order => decide (order.status = .str "delivered"))]
    congr 1
    apply List.countP_congr
    intro o _
    simp
  · intro hnum
    show List.foldl _ _ _ = _
    rw [foldl_add_numbers _ hnum 0]
    simp
  · show (List.filter _ _).length = _
    rw [List.countP_eq_length_filter]
  · show _ ≤ (List.filter _ _).length
    rw [← List.countP_eq_length_filter]
    apply List.countP_mono_left
    intro o _ h
    simp only [decide_eq_true_eq] at h ⊢
    rw [h]
    decide

/-! ## Registration: lemmas -/

theorem any_email_iff (users : List StoredUser) (email : String) :
    (users.any fun u => decide (u.email = .str email)) = true ↔
      ∃ u ∈ users, u.email = .str email := by
  simp [List.any_eq_true]

theorem any_username_iff (users : List StoredUser) (username : String) :
    (users.any fun u => decide (u.username = .str username)) = true ↔
      ∃ u ∈ users, u.username = .str username := by
  simp [List.any_eq_true]

theorem register_of_rejected (env : AuthEnv) (username email password : String) (role : JSVal)
    (s : AuthState) (h : rejectedAsTyped username email password s.users) :
    ∃ error, AuthSystem.register env username email password role s =
      .ok (.failure error, s) := by
  unfold AuthSystem.register
  by_cases h1 : username = "" ∨ email = "" ∨ password = ""
  · rw [if_pos h1]; exact ⟨_, rfl⟩
  rw [if_neg h1]
  by_cases h2 : utf16Length username < 3
  · rw [if_pos h2]; exact ⟨_, rfl⟩
  rw [if_neg h2]
  by_cases h3 : utf16Length password < 6
  · rw [if_pos h3]; exact ⟨_, rfl⟩
  rw [if_neg h3]
  by_cases h4 : (!isValidEmail email) = true
  · rw [if_pos h4]; exact ⟨_, rfl⟩
  rw [if_neg h4]
  simp only []
  by_cases h5 : (s.users.any fun u => decide (u.email = .str email)) = true
  · rw [if_pos h5]; exact ⟨_, rfl⟩
  rw [if_neg h5]
  by_cases h6 : (s.users.any fun u => decide (u.username = .str username)) = true
  · rw [if_pos h6]; exact ⟨_, rfl⟩
  exfalso
  rw [any_email_iff] at h5
  rw [any_username_iff] at h6
  unfold rejectedAsTyped at h
  rcases h with h | h | h | h | h | h | h | h
  · exact h1 (Or.inl h)
  · exact h1 (Or.inr (Or.inl h))
  · exact h1 (Or.inr (Or.inr h))
  · exact h2 h
  · exact h3 h
  · exact h4 (by rw [h]; rfl)
  · exact h5 h
  · exact h6 h

theorem register_of_accepted (env : AuthEnv) (username email password : String) (role : JSVal)
    (s : AuthState) (hw : env.storageWritable = true)
    (h : ¬ rejectedAsTyped username email password s.users) :
    AuthSystem.register env username email password role s =
      .ok (.success
          { id := .num env.now
            username := .str (trim username)
            email := .str (trim (env.toLowerCase email))
            password := .str password
            role := if role = .undefined then .str "customer" else role
            createdAt := .str (env.toISOString env.now)
            status := .str "active" },
        { users := s.users ++
            [{ id := .num env.now
               username := .str (trim username)
               email := .str (trim (env.toLowerCase email))
               password := .str password
               role := if role = .undefined then .str "customer" else role
               createdAt := .str (env.toISOString env.now)
               status := .str "active" }]
          currentUser := some
            { id := .num env.now
              username := .str (trim username)
              email := .str (trim (env.toLowerCase email))
              password := .str password
              role := if role = .undefined then .str "customer" else role
              createdAt := .str (env.toISOString env.now)
              status := .str "active" }
          savedUser := some
            { id := .num env.now
              username := .str (trim username)
              email := .str (trim (env.toLowerCase email))
              password := .str password
              role := if role = .undefined then .str "customer" else role
              createdAt := .str (env.toISOString env.now)
              status := .str "active" } }) := by
  unfold rejectedAsTyped at h
  simp only [not_or] at h
  obtain ⟨h1, h2, h3, h4, h5, h6, h7, h8⟩ := h
  unfold AuthSystem.register
  rw [if_neg (by simp [h1, h2, h3]), if_neg h4, if_neg h5,
    if_neg (by simpa using h6)]
  simp only []
  rw [if_neg (by rw [any_email_iff]; exact h7), if_neg (by rw [any_username_iff]; exact h8),
    if_pos hw]

/-! ## Re-entrant refresh: lemmas -/

theorem simulateOrderProgress_index_increases (parseDate : String → Option Int) (now : Int)
    (order : Order)
    (hch : (simulateOrderProgress parseDate now order).status ≠ order.status) :
    indexOf statusFlow order.status <
      indexOf statusFlow (simulateOrderProgress parseDate now order).status := by
  have hlow := (indexOf_statusFlow_bounds order.status).1
  rw [simulateOrderProgress_unfold] at hch ⊢
  by_cases hlt : indexOf statusFlow order.status < 3
  · rw [if_pos hlt] at hch ⊢
    cases horder : orderTime parseDate order with
    | none => rw [horder] at hch; exact absurd rfl hch
    | some t =>
      have he := expectedProgress_le ((now - t) / 60000)
      rw [horder] at hch
      simp only [] at hch ⊢
      by_cases hgt : expectedProgress ((now - t) / 60000) > indexOf statusFlow order.status
      · rw [if_pos hgt]
        simp only []
        rw [indexOf_elemAt _ (by omega) he]
        exact hgt
      · rw [if_neg hgt] at hch
        exact absurd rfl hch
  · rw [if_neg hlt] at hch
    exact absurd rfl hch

theorem statusChanges_bound (parseDate : String → Option Int) (nows : List Int) :
    ∀ order : Order,
      (statusChanges parseDate nows order : Int) ≤ 3 - indexOf statusFlow order.status := by
  induction nows with
  | nil =>
    intro order
    have := (indexOf_statusFlow_bounds order.status).2
    simp only [statusChanges, Nat.cast_zero]
    omega
  | cons now rest ih =>
    intro order
    have hrest := ih (simulateOrderProgress parseDate now order)
    unfold statusChanges
    by_cases hch : (simulateOrderProgress parseDate now order).status ≠ order.status
    · have hinc := simulateOrderProgress_index_increases parseDate now order hch
      rw [if_pos hch]
      push_cast
      omega
    · rw [if_neg hch]
      have hsame : (simulateOrderProgress parseDate now order).status = order.status := by
        simpa using hch
      rw [hsame] at hrest
      push_cast
      omega

theorem refreshOrderDataNested_returns (env : Env) (clock : Nat → Int) (orderId : JSVal) :
    ∀ (fuel : Nat) (w : World) (tick : Nat), 1 ≤ fuel →
      (∀ i current, findIndexM (refreshMatch env.user orderId) w.store = .ok (some i) →
        w.store[i]? = some current → 4 - indexOf statusFlow current.status ≤ (fuel : Int)) →
      ∃ r, refreshOrderDataNested env clock fuel orderId w tick = some r := by
  intro fuel
  induction fuel with
  | zero => intro w tick h; omega
  | succ fuel ih =>
    intro w tick _ hmeasure
    unfold refreshOrderDataNested
    cases hf : findIndexM (refreshMatch env.user orderId) w.store with
    | error e => simp only [hf]; exact ⟨_, rfl⟩
    | ok r =>
      cases r with
      | none => simp only [hf]; exact ⟨_, rfl⟩
      | some i =>
        obtain ⟨current, hcur, _⟩ := findIndexM_some _ _ _ hf
        have hi : i < w.store.length := (List.getElem?_eq_some.1 hcur).1
        simp only [hf, hcur]
        by_cases hchg :
            (simulateOrderProgress env.parseDate (clock tick) current).status ≠ current.status
        · rw [if_pos hchg]
          cases hwr : env.storageWritable with
          | false => simp only [Bool.false_eq_true, if_false]; exact ⟨_, rfl⟩
          | true =>
            simp only [if_true]
            by_cases htr : orderId.truthy = true
            · rw [if_pos htr]
              have hinc := simulateOrderProgress_index_increases env.parseDate (clock tick)
                current hchg
              have hup := (indexOf_statusFlow_bounds
                (simulateOrderProgress env.parseDate (clock tick) current).status).2
              have hm := hmeasure i current hf hcur
              have hnested := ih
                { store := w.store.set i (simulateOrderProgress env.parseDate (clock tick) current)
                  orders := w.store.set i (simulateOrderProgress env.parseDate (clock tick) current)
                  events := w.events ++
                    [{ orderId := orderId
                       status :=
                         (simulateOrderProgress env.parseDate (clock tick) current).status }]
                  notices := w.notices
                  displayed := w.displayed } (tick + 1) (by push_cast at hm; omega)
                (by
                  intro j cur2 hj hcur2
                  have hfs : findIndexM (refreshMatch env.user orderId)
                      (w.store.set i (simulateOrderProgress env.parseDate (clock tick) current)) =
                      .ok (some i) := by
                    rw [findIndexM_set _ _ _ current _ hcur
                      (refreshMatch_simulateOrderProgress _ _ _ _ _), hf]
                  have hji : j = i := by
                    have := hj.symm.trans hfs
                    simpa using this
                  subst hji
                  have hc2 : cur2 = simulateOrderProgress env.parseDate (clock tick) current := by
                    have : (w.store.set j
                        (simulateOrderProgress env.parseDate (clock tick) current))[j]? =
                        some cur2 := hcur2
                    rw [List.getElem?_set_self hi] at this
                    simpa using this.symm
                  rw [hc2]
                  push_cast at hm
                  omega)
              obtain ⟨r, hr⟩ := hnested
              rw [hr]
              exact ⟨_, rfl⟩
            · rw [if_neg htr]
              exact ⟨_, rfl⟩
        · rw [if_neg hchg]
          exact ⟨_, rfl⟩

theorem refreshOrderDataNested_of_current (env : Env) (clock : Nat → Int) (fuel : Nat)
    (orderId : JSVal) (w : World) (tick i : Nat) (current : Order)
    (hfind : findIndexM (refreshMatch env.user orderId) w.store = .ok (some i))
    (hcur : w.store[i]? = some current)
    (hsame : (simulateOrderProgress env.parseDate (clock tick) current).status =
      current.status) :
    refreshOrderDataNested env clock (fuel + 1) orderId w tick =
      some ({ w with orders := w.store, notices := w.notices ++ [.statusCurrent] },
        tick + 1) := by
  unfold refreshOrderDataNested
  simp only [hfind, hcur]
  rw [if_neg (by simpa using hsame)]
  rfl

theorem refreshOrderDataNested_same_clock (env : Env) (clock : Nat → Int)
    (hclock : ∀ k, clock k = env.now) (fuel : Nat) (orderId : JSVal) (w : World)
    (tick : Nat) :
    ∃ r, refreshOrderDataNested env clock (fuel + 2) orderId w tick = some r ∧
      r.1.store = (refreshOrderData env orderId w).store ∧
      r.1.events = (refreshOrderData env orderId w).events := by
  unfold refreshOrderDataNested
  cases hf : findIndexM (refreshMatch env.user orderId) w.store with
  | error e =>
    rw [refreshOrderData_of_error env orderId w e hf]
    simp only [hf]
    exact ⟨_, rfl, rfl, rfl⟩
  | ok r =>
    cases r with
    | none =>
      rw [refreshOrderData_of_none env orderId w hf]
      simp only [hf]
      exact ⟨_, rfl, rfl, rfl⟩
    | some i =>
      obtain ⟨current, hcur, _⟩ := findIndexM_some _ _ _ hf
      have hi : i < w.store.length := (List.getElem?_eq_some.1 hcur).1
      simp only [hf, hcur, hclock]
      by_cases hchg :
          (simulateOrderProgress env.parseDate env.now current).status ≠ current.status
      · rw [if_pos hchg]
        cases hwr : env.storageWritable with
        | false =>
          rw [refreshOrderData_of_write_failed env orderId w i current hf hcur hchg hwr]
          simp only [Bool.false_eq_true, if_false]
          exact ⟨_, rfl, rfl, rfl⟩
        | true =>
          rw [refreshOrderData_of_changed env orderId w i current hf hcur hchg hwr]
          simp only [if_true]
          by_cases htr : orderId.truthy = true
          · rw [if_pos htr]
            rw [refreshOrderDataNested_of_current env clock fuel orderId _ (tick + 1) i
              (simulateOrderProgress env.parseDate env.now current)
              (by
                show findIndexM (refreshMatch env.user orderId)
                  (w.store.set i (simulateOrderProgress env.parseDate env.now current)) = _
                rw [findIndexM_set _ _ _ current _ hcur
                  (refreshMatch_simulateOrderProgress _ _ _ _ _), hf])
              (by
                show (w.store.set i (simulateOrderProgress env.parseDate env.now current))[i]? = _
                simp [hi])
              (by rw [hclock]; exact simulateOrderProgress_settled _ _ _)]
            exact ⟨_, rfl, rfl, rfl⟩
          · rw [if_neg htr]
            exact ⟨_, rfl, rfl, rfl⟩
      · have hsame : (simulateOrderProgress env.parseDate env.now current).status =
            current.status := by
          simpa using hchg
        rw [refreshOrderData_of_current env orderId w i current hf hcur hsame, if_neg hchg]
        exact ⟨_, rfl, rfl, rfl⟩

/-- C27: bounded progression and termination of the re-entrant refresh.  For any
sequence of clock readings, applying `simulateOrderProgress` again and again
changes the status at most 3 times from a status of the sequence and at most
4 times from any status, every change strictly increasing the status index;
the nested `refreshOrderData` calls made through the tracker's own listener
return for every clock (a nesting depth of 5 is never exceeded), and when the
clock reading stays the same the nested call writes nothing and emits no
further event: store and events are those of the single call. -/
theorem nested_refresh_terminates (env : Env) (clock : Nat → Int) (nows : List Int)
    (order : Order) (orderId : JSVal) (w : World) (tick fuel : Nat) :
    (order.status ∈ sequence → statusChanges env.parseDate nows order ≤ 3) ∧
      statusChanges env.parseDate nows order ≤ 4 ∧
      (∀ now, (simulateOrderProgress env.parseDate now order).status ≠ order.status →
        indexOf statusFlow order.status <
          indexOf statusFlow (simulateOrderProgress env.parseDate now order).status) ∧
      (∃ r, refreshOrderDataNested env clock (fuel + 5) orderId w tick = some r) ∧
      ((∀ k, clock k = env.now) →
        ∃ r, refreshOrderDataNested env clock (fuel + 5) orderId w tick = some r ∧
          r.1.store = (refreshOrderData env orderId w).store ∧
          r.1.events = (refreshOrderData env orderId w).events) := by
  have hb := statusChanges_bound env.parseDate nows order
  have hlow := (indexOf_statusFlow_bounds order.status).1
  refine ⟨?_, ?_, fun now h => simulateOrderProgress_index_increases _ _ _ h, ?_, ?_⟩
  · intro hin
    have := (mem_sequence_iff _).1 hin
    omega
  · omega
  · apply refreshOrderDataNested_returns env clock orderId (fuel + 5) w tick (by omega)
    intro i current _ _
    have := (indexOf_statusFlow_bounds current.status).1
    push_cast
    omega
  · intro hclock
    exact refreshOrderDataNested_same_clock env clock hclock (fuel + 3) orderId w tick

/-- C28: along the simulated journey the floors of the estimate are never
reached.  For an order placed with status confirmed at a valid time, at any
current time with `0 ≤ e < 24` elapsed minutes, the label computed for the
status that `simulateOrderProgress` yields shows exactly `45 - e` minutes,
which is at least 22. -/
theorem estimate_along_journey (parseDate : String → Option Int) (now : Int) (order : Order)
    (t : Int) (hstatus : order.status = .str "confirmed")
    (htime : orderTime parseDate order = some t)
    (h0 : 0 ≤ (now - t) / 60000) (h24 : (now - t) / 60000 < 24) :
    ((now - t) / 60000 < 8 →
        (simulateOrderProgress parseDate now order).status = .str "confirmed") ∧
      (8 ≤ (now - t) / 60000 → (now - t) / 60000 < 16 →
        (simulateOrderProgress parseDate now order).status = .str "preparing") ∧
      (16 ≤ (now - t) / 60000 →
        (simulateOrderProgress parseDate now order).status = .str "out_for_delivery") ∧
      calculateEstimatedTime parseDate now (simulateOrderProgress parseDate now order).status
          (if order.createdAt.truthy then order.createdAt else order.date) =
        some (minutesLabel (45 - (now - t) / 60000)) ∧
      22 ≤ 45 - (now - t) / 60000 := by
  have hsim := simulateOrderProgress_of_target parseDate now order t htime
    (by rw [hstatus]; decide)
  have hidx : indexOf statusFlow order.status = 0 := by rw [hstatus]; decide
  rw [hidx] at hsim
  have htd : toDate parseDate (if order.createdAt.truthy then order.createdAt else order.date) =
      some t := htime
  have hest := calculateEstimatedTime_of_time parseDate now
    (simulateOrderProgress parseDate now order).status _ t htd
  rw [hest]
  by_cases h8 : (now - t) / 60000 < 8
  · have he := expectedProgress_of_range ((now - t) / 60000) 0 (by decide) (by omega) (by omega)
    rw [he] at hsim
    simp only [gt_iff_lt, lt_self_iff_false, if_false] at hsim
    rw [hsim, hstatus]
    refine ⟨fun _ => rfl, fun h => by omega, fun h => by omega, ?_, by omega⟩
    unfold estimatedTimeRemaining
    simp only [if_true]
    congr 2
    omega
  · by_cases h16 : (now - t) / 60000 < 16
    · have he := expectedProgress_of_range ((now - t) / 60000) 1 (by decide) (by omega)
        (by omega)
      rw [he] at hsim
      simp only [gt_iff_lt, zero_lt_one, if_true] at hsim
      rw [hsim]
      refine ⟨fun h => by omega, fun _ _ => rfl, fun h => by omega, ?_, by omega⟩
      show estimatedTimeRemaining (.str "preparing") t now = _
      unfold estimatedTimeRemaining
      simp only [JSVal.str.injEq, String.reduceEq, if_false, if_true]
      congr 2
      omega
    · have he := expectedProgress_of_range ((now - t) / 60000) 2 (by decide) (by omega)
        (by omega)
      rw [he] at hsim
      simp only [gt_iff_lt, Nat.ofNat_pos, if_true] at hsim
      rw [hsim]
      refine ⟨fun h => by omega, fun _ h => by omega, fun _ => rfl, ?_, by omega⟩
      show estimatedTimeRemaining (.str "out_for_delivery") t now = _
      unfold estimatedTimeRemaining
      simp only [JSVal.str.injEq, String.reduceEq, if_false, if_true]
      congr 2
      omega

/-! ## Evaluations at the sample data: history, registration, nested refresh -/

/-- C24 at the sample history of user 7, whose three orders come back most
recent first. -/
theorem loadHistory_own_orders_recent_first_witness :
    (OrderHistory.loadHistory sampleParseDate (some { id := .num 7 }) sampleHistory).1.Sorted
      (atLeastAsRecent sampleParseDate) :=
  ((loadHistory_own_orders_recent_first sampleParseDate (some { id := .num 7 })
    sampleHistory).2.1 { id := .num 7 } rfl).2.2 (by decide)

/-- C25 at a store with two orders of user 7 and one of user 9, cleared by user 7. -/
theorem clearHistory_removes_only_own_witness :
    ∃ s1, OrderHistory.clearHistory true (some { id := .num 7 }) true sampleStoredHistory =
        .ok s1 ∧
      s1.store = sampleStoredHistory.store.filter
        (fun order => decide (order.userId ≠ (User.mk (.num 7)).id)) ∧
      s1.store.Sublist sampleStoredHistory.store ∧
      (∀ o, o ∈ s1.store ↔
        o ∈ sampleStoredHistory.store ∧ o.userId ≠ (User.mk (.num 7)).id) ∧
      s1.orders = s1.store :=
  (clearHistory_removes_only_own true (some { id := .num 7 }) true sampleStoredHistory).2.2
    { id := .num 7 } rfl rfl rfl

/-- C27 at the sample order with a clock that stands still at eight minutes. -/
theorem nested_refresh_terminates_witness :
    ∃ r, refreshOrderDataNested (sampleEnv 8 (some { id := .num 7 })) (fun _ => sampleNow 8)
        (0 + 5) (.num 1001) (sampleWorld [sampleOrder "confirmed"]) 0 = some r ∧
      r.1.store = (refreshOrderData (sampleEnv 8 (some { id := .num 7 })) (.num 1001)
        (sampleWorld [sampleOrder "confirmed"])).store ∧
      r.1.events = (refreshOrderData (sampleEnv 8 (some { id := .num 7 })) (.num 1001)
        (sampleWorld [sampleOrder "confirmed"])).events :=
  (nested_refresh_terminates (sampleEnv 8 (some { id := .num 7 })) (fun _ => sampleNow 8) []
    (sampleOrder "confirmed") (.num 1001) (sampleWorld [sampleOrder "confirmed"]) 0 0).2.2.2.2
    (fun _ => rfl)

/-- C28 at the sample order, seventeen minutes after it was placed. -/
theorem estimate_along_journey_witness :
    calculateEstimatedTime sampleParseDate (sampleNow 17)
        (simulateOrderProgress sampleParseDate (sampleNow 17) (sampleOrder "confirmed")).status
        (if (sampleOrder "confirmed").createdAt.truthy then (sampleOrder "confirmed").createdAt
          else (sampleOrder "confirmed").date) =
      some (minutesLabel (45 - (sampleNow 17 - 1704067200000) / 60000)) :=
  (estimate_along_journey sampleParseDate (sampleNow 17) (sampleOrder "confirmed")
    1704067200000 rfl (by decide) (by decide) (by decide)).2.2.2.1

/-- C29: `register` stores a second user with an email already stored.  The store
holds alice with a@b.com; registering bob with A@B.com passes the check, which
compares the stored emails with the address as typed, and stores bob with the
lower-cased a@b.com: the emails were pairwise distinct before the call and
are not after it. -/
theorem register_duplicates_email :
    AuthSystem.register sampleAuthEnv "bob" "A@B.com" "secret1" .undefined sampleAuthState =
        .ok (.success sampleBob,
          { users := sampleAuthState.users ++ [sampleBob]
            currentUser := some sampleBob
            savedUser := some sampleBob }) ∧
      (sampleAuthState.users.map StoredUser.email).Nodup ∧
      ¬ ((sampleAuthState.users ++ [sampleBob]).map StoredUser.email).Nodup := by
  decide

/-- C30 at the sample history of user 7: three orders with totals 300, 450 and 250. -/
theorem getOrderStats_partition_witness :
    (OrderHistory.getOrderStats sampleParseDate (some { id := .num 7 })
        sampleHistory).1.totalSpent =
      .number (some (((OrderHistory.loadHistory sampleParseDate (some { id := .num 7 })
        sampleHistory).1.map fun o => totalValue o.total).sum)) :=
  (getOrderStats_partition sampleParseDate (some { id := .num 7 }) sampleHistory).2.2.1
    (fun o ho => ⟨totalValue o.total,
      (by decide : ∀ o ∈ (OrderHistory.loadHistory sampleParseDate (some { id := .num 7 })
        sampleHistory).1, o.total = .num (totalValue o.total)) o ho⟩)

/-! ## The refresh with the tracker's own listener: lemmas -/

theorem set_getElem?_self (l : List Order) (i : Nat) (a : Order) (h : l[i]? = some a) :
    l.set i a = l := by
  apply List.ext_getElem?
  intro j
  by_cases hj : i = j
  · subst hj
    rw [List.getElem?_set_self (List.getElem?_eq_some.1 h).1, h]
  · rw [List.getElem?_set_ne hj]

theorem refreshOrderDataNested_of_changed (env : Env) (clock : Nat → Int) (fuel : Nat)
    (orderId : JSVal) (w : World) (tick i : Nat) (current : Order)
    (hfind : findIndexM (refreshMatch env.user orderId) w.store = .ok (some i))
    (hcur : w.store[i]? = some current)
    (hchg : (simulateOrderProgress env.parseDate (clock tick) current).status ≠ current.status)
    (hwr : env.storageWritable = true) :
    refreshOrderDataNested env clock (fuel + 1) orderId w tick =
      (if orderId.truthy then
          refreshOrderDataNested env clock fuel orderId
            { store := w.store.set i (simulateOrderProgress env.parseDate (clock tick) current)
              orders := w.store.set i (simulateOrderProgress env.parseDate (clock tick) current)
              events := w.events ++
                [{ orderId := orderId
                   status := (simulateOrderProgress env.parseDate (clock tick) current).status }]
              notices := w.notices
              displayed := w.displayed } (tick + 1)
        else
          some ({ store := w.store.set i (simulateOrderProgress env.parseDate (clock tick) current)
                  orders := w.store.set i (simulateOrderProgress env.parseDate (clock tick) current)
                  events := w.events ++
                    [{ orderId := orderId
                       status :=
                         (simulateOrderProgress env.parseDate (clock tick) current).status }]
                  notices := w.notices
                  displayed := w.displayed }, tick + 1)).map
        fun r =>
          ({ r.1 with
             displayed := r.1.displayed ++
               [simulateOrderProgress env.parseDate (clock tick) current]
             notices := r.1.notices ++
               [.statusUpdated (simulateOrderProgress env.parseDate (clock tick) current).status] },
            r.2) := by
  by_cases htr : orderId.truthy = true
  · rw [if_pos htr]
    generalize hx : refreshOrderDataNested env clock fuel orderId _ (tick + 1) = x
    unfold refreshOrderDataNested
    simp only [hfind, hcur, hwr, if_true]
    rw [if_pos hchg, if_pos htr, hx]
    cases x with
    | none => rfl
    | some r => rfl
  · rw [if_neg htr]
    unfold refreshOrderDataNested
    simp only [hfind, hcur, hwr, if_true]
    rw [if_pos hchg, if_neg htr]
    rfl

theorem refreshOrderDataNested_of_write_failed (env : Env) (clock : Nat → Int) (fuel : Nat)
    (orderId : JSVal) (w : World) (tick i : Nat) (current : Order)
    (hfind : findIndexM (refreshMatch env.user orderId) w.store = .ok (some i))
    (hcur : w.store[i]? = some current)
    (hchg : (simulateOrderProgress env.parseDate (clock tick) current).status ≠ current.status)
    (hwr : env.storageWritable = false) :
    refreshOrderDataNested env clock (fuel + 1) orderId w tick =
      some ({ w with
              orders := w.store.set i (simulateOrderProgress env.parseDate (clock tick) current)
              notices := w.notices ++ [.refreshFailed] }, tick + 1) := by
  unfold refreshOrderDataNested
  simp only [hfind, hcur, hwr]
  rw [if_pos hchg]
  rfl

theorem refreshOrderDataNested_effect (env : Env) (clock : Nat → Int) (orderId : JSVal) :
    ∀ (fuel : Nat) (w : World) (tick : Nat) (r : World × Nat),
      refreshOrderDataNested env clock fuel orderId w tick = some r →
      ∀ i current, findIndexM (refreshMatch env.user orderId) w.store = .ok (some i) →
        w.store[i]? = some current →
        ∃ statuses : List JSVal,
          r.1.events = w.events ++
            statuses.map (fun s => ({ orderId := orderId, status := s } : StatusEvent)) ∧
          r.1.store = w.store.set i { current with status := statuses.getLastD current.status } ∧
          (∀ s ∈ statuses, indexOf statusFlow current.status < indexOf statusFlow s) ∧
          ((simulateOrderProgress env.parseDate (clock tick) current).status = current.status →
            statuses = []) := by
  intro fuel
  induction fuel with
  | zero =>
    intro w tick r h
    simp [refreshOrderDataNested] at h
  | succ fuel ih =>
    intro w tick r h i current hfind hcur
    have hi : i < w.store.length := (List.getElem?_eq_some.1 hcur).1
    have hself : w.store.set i { current with status := current.status } = w.store :=
      set_getElem?_self _ _ _ hcur
    by_cases hchg :
        (simulateOrderProgress env.parseDate (clock tick) current).status ≠ current.status
    · cases hwr : env.storageWritable with
      | false =>
        rw [refreshOrderDataNested_of_write_failed env clock fuel orderId w tick i current
          hfind hcur hchg hwr] at h
        simp only [Option.some.injEq] at h
        subst h
        exact ⟨[], by simp, by simpa using hself.symm, by simp, fun _ => rfl⟩
      | true =>
        rw [refreshOrderDataNested_of_changed env clock fuel orderId w tick i current
          hfind hcur hchg hwr] at h
        obtain ⟨r1, hr1, hmap⟩ := Option.map_eq_some'.1 h
        subst hmap
        have hinc := simulateOrderProgress_index_increases env.parseDate (clock tick)
          current hchg
        by_cases htr : orderId.truthy = true
        · rw [if_pos htr] at hr1
          have hfs : findIndexM (refreshMatch env.user orderId)
              (w.store.set i (simulateOrderProgress env.parseDate (clock tick) current)) =
              .ok (some i) := by
            rw [findIndexM_set _ _ _ current _ hcur
              (refreshMatch_simulateOrderProgress _ _ _ _ _), hfind]
          obtain ⟨st, he, hs, hidx, _⟩ := ih _ (tick + 1) r1 hr1 i
            (simulateOrderProgress env.parseDate (clock tick) current) hfs
            (by
              show (w.store.set i (simulateOrderProgress env.parseDate (clock tick) current))[i]? = _
              rw [List.getElem?_set_self hi])
          refine ⟨(simulateOrderProgress env.parseDate (clock tick) current).status :: st,
            ?_, ?_, ?_, fun hsame => absurd hsame hchg⟩
          · show r1.1.events = _
            rw [he]
            simp
          · show r1.1.store = _
            rw [hs]
            show (w.store.set i _).set i _ = _
            rw [List.set_set, List.getLastD_cons]
            congr 1
            rw [simulateOrderProgress_with_status]
          · intro s hs
            rcases List.mem_cons.1 hs with h1 | h1
            · rw [h1]; exact hinc
            · exact lt_trans hinc (hidx s h1)
        · rw [if_neg htr] at hr1
          simp only [Option.some.injEq] at hr1
          subst hr1
          refine ⟨[(simulateOrderProgress env.parseDate (clock tick) current).status],
            rfl, ?_, ?_, fun hsame => absurd hsame hchg⟩
          · show w.store.set i _ = _
            congr 1
            rw [simulateOrderProgress_with_status]
            rfl
          · intro s hs
            rw [List.mem_singleton.1 hs]
            exact hinc
    · have hsame : (simulateOrderProgress env.parseDate (clock tick) current).status =
          current.status := by
        simpa using hchg
      rw [refreshOrderDataNested_of_current env clock fuel orderId w tick i current hfind hcur
        hsame] at h
      simp only [Option.some.injEq] at h
      subst h
      exact ⟨[], by simp, by simpa using hself.symm, by simp, fun _ => rfl⟩

theorem refreshOrderDataNested_advanced (env : Env) (clock : Nat → Int) (orderId : JSVal)
    (w : World) (tick fuel i : Nat) (current : Order)
    (hfind : findIndexM (refreshMatch env.user orderId) w.store = .ok (some i))
    (hcur : w.store[i]? = some current)
    (hchg : (simulateOrderProgress env.parseDate (clock tick) current).status ≠ current.status)
    (hwr : env.storageWritable = true) :
    ∃ r later, refreshOrderDataNested env clock (fuel + 5) orderId w tick = some r ∧
      r.1.events = w.events ++
        ({ orderId := orderId
           status := (simulateOrderProgress env.parseDate (clock tick) current).status } ::
          later.map (fun s => ({ orderId := orderId, status := s } : StatusEvent))) ∧
      r.1.store = w.store.set i
        { current with
          status := later.getLastD
            (simulateOrderProgress env.parseDate (clock tick) current).status } ∧
      (∀ s ∈ later,
        indexOf statusFlow (simulateOrderProgress env.parseDate (clock tick) current).status <
          indexOf statusFlow s) ∧
      ((simulateOrderProgress env.parseDate (clock (tick + 1))
            (simulateOrderProgress env.parseDate (clock tick) current)).status =
          (simulateOrderProgress env.parseDate (clock tick) current).status → later = []) ∧
      r.1.displayed.getLast? = some (simulateOrderProgress env.parseDate (clock tick) current) ∧
      r.1.notices.getLast? =
        some (.statusUpdated (simulateOrderProgress env.parseDate (clock tick) current).status) := by
  have hi : i < w.store.length := (List.getElem?_eq_some.1 hcur).1
  obtain ⟨r, hr⟩ := refreshOrderDataNested_returns env clock orderId (fuel + 5) w tick
    (by omega)
    (by
      intro j cur _ _
      have := (indexOf_statusFlow_bounds cur.status).1
      push_cast
      omega)
  refine ⟨r, ?_⟩
  have h := hr
  rw [refreshOrderDataNested_of_changed env clock (fuel + 4) orderId w tick i current
    hfind hcur hchg hwr] at h
  obtain ⟨r1, hr1, hmap⟩ := Option.map_eq_some'.1 h
  subst hmap
  by_cases htr : orderId.truthy = true
  · rw [if_pos htr] at hr1
    have hfs : findIndexM (refreshMatch env.user orderId)
        (w.store.set i (simulateOrderProgress env.parseDate (clock tick) current)) =
        .ok (some i) := by
      rw [findIndexM_set _ _ _ current _ hcur
        (refreshMatch_simulateOrderProgress _ _ _ _ _), hfind]
    obtain ⟨st, he, hs, hidx, hnil⟩ := refreshOrderDataNested_effect env clock orderId
      (fuel + 4) _ (tick + 1) r1 hr1 i
      (simulateOrderProgress env.parseDate (clock tick) current) hfs
      (by
        show (w.store.set i (simulateOrderProgress env.parseDate (clock tick) current))[i]? = _
        rw [List.getElem?_set_self hi])
    refine ⟨st, hr, ?_, ?_, hidx, hnil, by simp, by simp⟩
    · show r1.1.events = _
      rw [he]
      simp
    · show r1.1.store = _
      rw [hs]
      show (w.store.set i _).set i _ = _
      rw [List.set_set]
      congr 1
      rw [simulateOrderProgress_with_status]
  · rw [if_neg htr] at hr1
    simp only [Option.some.injEq] at hr1
    subst hr1
    refine ⟨[], hr, by simp, ?_, by simp, fun _ => rfl, by simp, by simp⟩
    show w.store.set i _ = _
    congr 1
    rw [simulateOrderProgress_with_status]
    rfl

theorem getLast?_statusEvents (orderId : JSVal) :
    ∀ (later : List JSVal) (first : JSVal) (before : List StatusEvent),
      ((before ++ (({ orderId := orderId, status := first } : StatusEvent) ::
          later.map (fun s => ({ orderId := orderId, status := s } : StatusEvent)))).getLast?).map
        StatusEvent.status = some (later.getLastD first) := by
  intro later
  induction later with
  | nil => intro first before; simp
  | cons a rest ih =>
    intro first before
    have h := ih a (before ++ [{ orderId := orderId, status := first }])
    rw [List.getLastD_cons]
    rw [← h]
    simp

/-! ## The refresh with the tracker's own listener -/

/-- C10: frame of the store write.  When `refreshOrderData`, run with the
tracker's own listener, finds the order at index `i`, its simulated status
differs from the stored one and the store accepts the write, the call
returns.  The list it writes is the list read before the call with the entry
at index `i` replaced by the updated order; the listener then runs on that
store, and the list the call leaves in the store is still the list read with
only the entry at index `i` replaced: the same length, the same entry at
every other index, and at index `i` the original order with nothing but its
status changed, to a later status of the sequence.  That entry is the updated
order of this call unless the clock reading of the re-entrant call advances
the order again. -/
theorem refresh_store_frame (env : Env) (clock : Nat → Int) (orderId : JSVal) (w : World)
    (tick fuel i : Nat) (current : Order)
    (hfind : findIndexM (refreshMatch env.user orderId) w.store = .ok (some i))
    (hcur : w.store[i]? = some current)
    (hchg : (simulateOrderProgress env.parseDate (clock tick) current).status ≠ current.status)
    (hwr : env.storageWritable = true) :
    ∃ r updated, refreshOrderDataNested env clock (fuel + 5) orderId w tick = some r ∧
      (∃ written rest,
        written.store =
          w.store.set i (simulateOrderProgress env.parseDate (clock tick) current) ∧
        (if orderId.truthy then
            refreshOrderDataNested env clock (fuel + 4) orderId written (tick + 1)
          else some (written, tick + 1)) = some rest ∧
        r.1.store = rest.1.store) ∧
      r.1.store = w.store.set i updated ∧
      r.1.store.length = w.store.length ∧
      r.1.store[i]? = some updated ∧
      (∀ j, j ≠ i → r.1.store[j]? = w.store[j]?) ∧
      updated = { current with status := updated.status } ∧
      indexOf statusFlow current.status < indexOf statusFlow updated.status ∧
      ((simulateOrderProgress env.parseDate (clock (tick + 1))
            (simulateOrderProgress env.parseDate (clock tick) current)).status =
          (simulateOrderProgress env.parseDate (clock tick) current).status →
        updated = simulateOrderProgress env.parseDate (clock tick) current) := by
  have hi : i < w.store.length := (List.getElem?_eq_some.1 hcur).1
  have hinc := simulateOrderProgress_index_increases env.parseDate (clock tick) current hchg
  obtain ⟨r, later, hr, _, hs, hidx, hnil, _, _⟩ :=
    refreshOrderDataNested_advanced env clock orderId w tick fuel i current hfind hcur hchg hwr
  have hwritten := hr
  rw [refreshOrderDataNested_of_changed env clock (fuel + 4) orderId w tick i current
    hfind hcur hchg hwr] at hwritten
  obtain ⟨rest, hrest, hmap⟩ := Option.map_eq_some'.1 hwritten
  refine ⟨r, _, hr, ⟨_, rest, rfl, hrest, by rw [← hmap]⟩, hs, ?_, ?_, ?_, rfl, ?_, ?_⟩
  · rw [hs, List.length_set]
  · rw [hs, List.getElem?_set_self hi]
  · intro j hj
    rw [hs, List.getElem?_set_ne (Ne.symm hj)]
  · show _ < indexOf statusFlow (later.getLastD _)
    cases hl : later.getLast? with
    | none =>
      rw [List.getLast?_eq_none_iff.1 hl]
      exact hinc
    | some s =>
      have hmem : s ∈ later := List.mem_of_getLast?_eq_some hl
      rw [List.getLastD_eq_getLast?, hl]
      exact lt_trans hinc (hidx s hmem)
  · intro hsettle
    rw [hnil hsettle]
    show ({ current with
      status := (simulateOrderProgress env.parseDate (clock tick) current).status } : Order) = _
    rw [← simulateOrderProgress_with_status]

/-- C10 at a store holding another customer's order and the sample order,
refreshed by the owner with a clock that reads eight, then nine minutes after
the sample order was placed. -/
theorem refresh_store_frame_witness :
    ∃ r, refreshOrderDataNested (sampleEnv 8 (some { id := .num 7 }))
          (fun k => sampleNow (8 + k)) (0 + 5) (.num 1001)
          (sampleWorld [sampleOtherOrder, sampleOrder "confirmed"]) 0 = some r ∧
      r.1.store.length = 2 ∧
      r.1.store[0]? = some sampleOtherOrder ∧
      r.1.store[1]? = some (sampleOrder "preparing") :=
  match refresh_store_frame (sampleEnv 8 (some { id := .num 7 })) (fun k => sampleNow (8 + k))
      (.num 1001) (sampleWorld [sampleOtherOrder, sampleOrder "confirmed"]) 0 0 1
      (sampleOrder "confirmed") (by decide) (by decide) (by decide) rfl with
  | ⟨r, _, hr, _, _, hlen, hi, hother, _, _, hupd⟩ =>
    ⟨r, hr, hlen, hother 0 (by decide), hi.trans (congrArg some (hupd (by decide)))⟩

/-- C11: one call of `refreshOrderData` emits two events.  The store holds the
confirmed sample order; the owner refreshes it with a clock that reads
15 min 59.999 s after placement in the call and 16 min in the call the
tracker's own listener makes when the first event is dispatched.  The first
call advances the order to preparing and dispatches, the re-entrant call
advances it to out for delivery and dispatches again: the store ends with
out for delivery and two events were emitted.  With readings 8, 16 and 24
minutes after placement three events are emitted. -/
theorem refresh_across_threshold_emits_two_events :
    (refreshOrderDataNested (sampleEnv 15 (some { id := .num 7 })) sampleCrossingClock 5
          (.num 1001) (sampleWorld [sampleOrder "confirmed"]) 0).map
        (fun r => (r.1.store, r.1.events)) =
      some ([sampleOrder "out_for_delivery"],
        [{ orderId := .num 1001, status := .str "preparing" },
         { orderId := .num 1001, status := .str "out_for_delivery" }]) ∧
      (simulateOrderProgress sampleParseDate (sampleCrossingClock 0)
          (sampleOrder "confirmed")).status = .str "preparing" ∧
      (refreshOrderDataNested (sampleEnv 8 (some { id := .num 7 }))
          (fun k => sampleNow (8 * (k + 1))) 5 (.num 1001)
          (sampleWorld [sampleOrder "confirmed"]) 0).map (fun r => r.1.events.length) =
        some 3 := by
  decide

/-- C12 fails as stated: forty minutes after placement, the refresh of a
confirmed order and the refresh of an order being prepared emit the same
single event, with the requested id and the status delivered; the old status,
different in the two cases, is not in it. -/
theorem status_event_lacks_old_status :
    (refreshOrderDataNested (sampleEnv 40 (some { id := .num 7 })) (fun _ => sampleNow 40) 5
          (.num 1001) (sampleWorld [sampleOrder "confirmed"]) 0).map (fun r => r.1.events) =
        some [{ orderId := .num 1001, status := .str "delivered" }] ∧
      (refreshOrderDataNested (sampleEnv 40 (some { id := .num 7 })) (fun _ => sampleNow 40) 5
          (.num 1001) (sampleWorld [sampleOrder "preparing"]) 0).map (fun r => r.1.events) =
        some [{ orderId := .num 1001, status := .str "delivered" }] ∧
      (sampleOrder "confirmed").status ≠ (sampleOrder "preparing").status := by
  decide

/-- C12, as amended: when a refresh, run with the tracker's own listener,
advances an order, the event it emits carries the requested order id, which
matches the id of the order, and the new status computed by
`simulateOrderProgress`, a later status than the old one; it has no field for
the old status.  Any further event of the call comes from the re-entrant
refresh, with the same id and a still later status, and there is none when
the clock reading of the re-entrant call does not advance the order again.
The status held in the store after the call is the status of the last event
emitted. -/
theorem status_event_carries_id_and_new_status (env : Env) (clock : Nat → Int)
    (orderId : JSVal) (w : World) (tick fuel i : Nat) (current : Order)
    (hfind : findIndexM (refreshMatch env.user orderId) w.store = .ok (some i))
    (hcur : w.store[i]? = some current)
    (hchg : (simulateOrderProgress env.parseDate (clock tick) current).status ≠ current.status)
    (hwr : env.storageWritable = true) :
    ∃ r later, refreshOrderDataNested env clock (fuel + 5) orderId w tick = some r ∧
      r.1.events = w.events ++
        ({ orderId := orderId
           status := (simulateOrderProgress env.parseDate (clock tick) current).status } ::
          later.map (fun s => ({ orderId := orderId, status := s } : StatusEvent))) ∧
      looseMatch current.id orderId = .ok true ∧
      indexOf statusFlow current.status <
        indexOf statusFlow (simulateOrderProgress env.parseDate (clock tick) current).status ∧
      (∀ s ∈ later,
        indexOf statusFlow (simulateOrderProgress env.parseDate (clock tick) current).status <
          indexOf statusFlow s) ∧
      ((simulateOrderProgress env.parseDate (clock (tick + 1))
            (simulateOrderProgress env.parseDate (clock tick) current)).status =
          (simulateOrderProgress env.parseDate (clock tick) current).status → later = []) ∧
      (r.1.store[i]?).map Order.status =
        some (later.getLastD (simulateOrderProgress env.parseDate (clock tick) current).status) ∧
      (r.1.events.getLast?).map StatusEvent.status = (r.1.store[i]?).map Order.status := by
  have hi : i < w.store.length := (List.getElem?_eq_some.1 hcur).1
  have hinc := simulateOrderProgress_index_increases env.parseDate (clock tick) current hchg
  obtain ⟨o, ho, hm⟩ := findIndexM_some _ _ _ hfind
  rw [hcur] at ho
  simp only [Option.some.injEq] at ho
  subst ho
  have hid : looseMatch current.id orderId = .ok true := by
    cases hu : env.user with
    | none =>
      rw [hu] at hm
      unfold refreshMatch at hm
      cases hl : looseMatch current.id orderId <;> rw [hl] at hm <;> simp at hm
    | some u =>
      rw [hu] at hm
      exact ((refreshMatch_true_iff u orderId current).1 hm).1
  obtain ⟨r, later, hr, he, hs, hidx, hnil, _, _⟩ :=
    refreshOrderDataNested_advanced env clock orderId w tick fuel i current hfind hcur hchg hwr
  have hstored : (r.1.store[i]?).map Order.status =
      some (later.getLastD (simulateOrderProgress env.parseDate (clock tick) current).status) := by
    rw [hs, List.getElem?_set_self hi]
    rfl
  refine ⟨r, later, hr, he, hid, hinc, hidx, hnil, hstored, ?_⟩
  rw [hstored, he]
  exact getLast?_statusEvents orderId later _ w.events

/-- C12 as amended, at the sample order refreshed by its owner with a clock
that reads eight, then nine minutes after placement: one event, whose status
is the stored status after the call. -/
theorem status_event_carries_id_and_new_status_witness :
    ∃ r, refreshOrderDataNested (sampleEnv 8 (some { id := .num 7 }))
          (fun k => sampleNow (8 + k)) (0 + 5) (.num 1001)
          (sampleWorld [sampleOrder "confirmed"]) 0 = some r ∧
      (r.1.events.getLast?).map StatusEvent.status = (r.1.store[0]?).map Order.status :=
  match status_event_carries_id_and_new_status (sampleEnv 8 (some { id := .num 7 }))
      (fun k => sampleNow (8 + k)) (.num 1001) (sampleWorld [sampleOrder "confirmed"]) 0 0 0
      (sampleOrder "confirmed") (by decide) (by decide) (by decide) rfl with
  | ⟨r, _, hr, _, _, _, _, _, _, hlast⟩ => ⟨r, hr, hlast⟩

/-- C16: for a stored order with status confirmed created at `t0`, a refresh by
its owner, run with the tracker's own listener, whose clock reads a time with
`8 ≤ elapsed minutes < 16` computes the order with status preparing, shows it
and reports the update (changed is true), emits the event for it first, and
the progress percentage of the new status is 50.  When the clock reading of
the re-entrant call is before `t0 + 16 min` as well, the store holds the
order with status preparing after the call and that event is the only one;
a further refresh at any time before `t0 + 16 min` then finds the status
current: no write, no event (changed is false). -/
theorem scenario_confirmed_to_preparing (env : Env) (clock : Nat → Int) (orderId : JSVal)
    (w : World) (tick fuel i : Nat) (order : Order) (t0 : Int)
    (hfind : findIndexM (refreshMatch env.user orderId) w.store = .ok (some i))
    (hcur : w.store[i]? = some order)
    (hstatus : order.status = .str "confirmed")
    (htime : orderTime env.parseDate order = some t0)
    (hwr : env.storageWritable = true)
    (h8 : 8 ≤ (clock tick - t0) / 60000) (h16 : (clock tick - t0) / 60000 < 16) :
    simulateOrderProgress env.parseDate (clock tick) order =
        { order with status := .str "preparing" } ∧
      calculateProgressPercentage
        (simulateOrderProgress env.parseDate (clock tick) order).status = .value 50 ∧
      ∃ r, refreshOrderDataNested env clock (fuel + 5) orderId w tick = some r ∧
        (∃ rest, r.1.events =
          w.events ++ ({ orderId := orderId, status := .str "preparing" } :: rest)) ∧
        r.1.displayed.getLast? = some { order with status := .str "preparing" } ∧
        r.1.notices.getLast? = some (.statusUpdated (.str "preparing")) ∧
        ((clock (tick + 1) - t0) / 60000 < 16 →
          r.1.store = w.store.set i { order with status := .str "preparing" } ∧
          r.1.events = w.events ++ [{ orderId := orderId, status := .str "preparing" }] ∧
          ∀ (clock2 : Nat → Int) (tick2 fuel2 : Nat), (clock2 tick2 - t0) / 60000 < 16 →
            refreshOrderDataNested env clock2 (fuel2 + 1) orderId r.1 tick2 =
              some ({ r.1 with orders := r.1.store, notices := r.1.notices ++ [.statusCurrent] },
                tick2 + 1)) := by
  have hi : i < w.store.length := (List.getElem?_eq_some.1 hcur).1
  have he1 := expectedProgress_of_range ((clock tick - t0) / 60000) 1 (by decide)
    (by omega) (by omega)
  have hsim : simulateOrderProgress env.parseDate (clock tick) order =
      { order with status := .str "preparing" } := by
    rw [simulateOrderProgress_of_target _ _ _ t0 htime (by rw [hstatus]; decide), he1, hstatus]
    rfl
  have hchg : (simulateOrderProgress env.parseDate (clock tick) order).status ≠ order.status := by
    rw [hsim, hstatus]
    simp
  have hsame : ∀ now : Int, (now - t0) / 60000 < 16 →
      (simulateOrderProgress env.parseDate now
        { order with status := .str "preparing" }).status =
      ({ order with status := .str "preparing" } : Order).status := by
    intro now hnow
    have he : ¬ expectedProgress ((now - t0) / 60000) > 1 := by
      rw [expectedProgress_eq]
      omega
    rw [simulateOrderProgress_of_target env.parseDate now
      { order with status := .str "preparing" } t0 htime
      (by show indexOf statusFlow (.str "preparing") < 3; decide)]
    rw [if_neg (by
      show ¬ expectedProgress ((now - t0) / 60000) > indexOf statusFlow (.str "preparing")
      exact he)]
  obtain ⟨r, later, hr, hev, hs, _, hnil, hdisp, hnot⟩ :=
    refreshOrderDataNested_advanced env clock orderId w tick fuel i order hfind hcur hchg hwr
  rw [hsim] at hev hs hnil hdisp hnot
  refine ⟨hsim, by rw [hsim]; rfl, r, hr, ⟨_, hev⟩, hdisp, hnot, ?_⟩
  intro hnext
  have hl := hnil (hsame (clock (tick + 1)) hnext)
  rw [hl] at hev hs
  have hstore : r.1.store = w.store.set i { order with status := .str "preparing" } := hs
  refine ⟨hstore, hev, ?_⟩
  intro clock2 tick2 fuel2 hbefore
  exact refreshOrderDataNested_of_current env clock2 fuel2 orderId r.1 tick2 i
    { order with status := .str "preparing" }
    (by
      rw [hstore, findIndexM_set (refreshMatch env.user orderId) w.store i order
        { order with status := .str "preparing" } hcur rfl, hfind])
    (by rw [hstore, List.getElem?_set_self hi])
    (hsame (clock2 tick2) hbefore)

/-- C16 at the sample order: refreshed with a clock that reads eight, then nine
minutes after placement, and refreshed again at ten minutes. -/
theorem scenario_confirmed_to_preparing_witness :
    ∃ r, refreshOrderDataNested (sampleEnv 8 (some { id := .num 7 }))
          (fun k => sampleNow (8 + k)) (0 + 5) (.num 1001)
          (sampleWorld [sampleOrder "confirmed"]) 0 = some r ∧
      r.1.store = [sampleOrder "preparing"] ∧
      r.1.events = [{ orderId := .num 1001, status := .str "preparing" }] ∧
      refreshOrderDataNested (sampleEnv 8 (some { id := .num 7 })) (fun _ => sampleNow 10)
          (0 + 1) (.num 1001) r.1 0 =
        some ({ r.1 with orders := r.1.store, notices := r.1.notices ++ [.statusCurrent] },
          0 + 1) :=
  match (scenario_confirmed_to_preparing (sampleEnv 8 (some { id := .num 7 }))
      (fun k => sampleNow (8 + k)) (.num 1001) (sampleWorld [sampleOrder "confirmed"]) 0 0 0
      (sampleOrder "confirmed") 1704067200000 (by decide) (by decide) rfl (by decide) rfl
      (by decide) (by decide)).2.2 with
  | ⟨r, hr, _, _, _, h⟩ =>
    ⟨r, hr, (h (by decide)).1, (h (by decide)).2.1,
      (h (by decide)).2.2 (fun _ => sampleNow 10) 0 0 (by decide)⟩

/-! ## Registration at names and addresses already stored -/

/-- C26: `register` accepts a username and an email that stored users already
have.  The store holds alice with a@b.com.  Registering "alice " (with a
trailing space) passes the lookups, which compare the stored usernames with
the username as typed, and a second user named alice is stored; registering
carol with A@B.com passes them as well and a second user with the email
a@b.com is stored.  Both calls return success. -/
theorem register_accepts_taken_username_and_email :
    AuthSystem.register sampleAuthEnv "alice " "alice2@b.com" "secret1" .undefined
        sampleAuthState =
      .ok (.success sampleSecondAlice,
        { users := sampleAuthState.users ++ [sampleSecondAlice]
          currentUser := some sampleSecondAlice
          savedUser := some sampleSecondAlice }) ∧
      (∃ u ∈ sampleAuthState.users, u.username = sampleSecondAlice.username) ∧
      AuthSystem.register sampleAuthEnv "carol" "A@B.com" "secret1" .undefined sampleAuthState =
        .ok (.success sampleCarol,
          { users := sampleAuthState.users ++ [sampleCarol]
            currentUser := some sampleCarol
            savedUser := some sampleCarol }) ∧
      (∃ u ∈ sampleAuthState.users, u.email = sampleCarol.email) := by
  decide

end TrackOrder
